import Mathlib

/-!
# Verification of the darkscraper crawl engine against its specification

This file gives a shallow embedding, in Lean 4, of the parts of the
darkscraper crawler that the specification's testable claims are about:

* the frontier (`crates/frontier/src/lib.rs`): URL normalization, the
  priority policy, the per-network queues and the dedup discipline;
* the crawl orchestrator's fetch-error branch and per-domain page counter
  (`src/crawl.rs`);
* `make_crawl_job` and `is_v3_onion` (`src/crawl.rs`, `src/seeds.rs`);
* the network drivers' retry/classification policy
  (`crates/networks/src/tor.rs`, `crates/networks/src/hyphanet.rs`,
  `crates/core/src/types.rs`, `crates/core/src/error.rs`);
* the Hyphanet driver's post-response processing (body-size guard and
  FProxy error-page detection);
* the parser's `parse_response` (`crates/parser/src/lib.rs`) together
  with SHA-256 and Rust's lossy UTF-8 decoding, and the Hyphanet link
  special case of `extract_links` (`crates/parser/src/html.rs`).

Rust machine integers are modelled as `Nat` (sizes/counters never
overflow in the modelled code paths); `f64` priorities are modelled as
`ℚ` (the only arithmetic performed on them in the modelled code is
multiplication by the exactly-representable 0.5 and division by small
integers, which are exact in both `f64` and `ℚ` for the stated claims).
External library calls (the `url` crate's parser and join, the HTML
DOM) are passed in as explicit function parameters or modelled on the
concrete inputs used by the examples.
-/

set_option maxRecDepth 4096
set_option autoImplicit false

namespace DarkScraper

/-! ## String primitives

Rust's `str` operations used by the crawler, modelled over `String`
via its character list.  The URLs and HTML handled by the modelled
code paths are ASCII, where Rust's byte indices and Lean's character
indices coincide.
-/

/-- Models Rust `str::starts_with(pat)`. -/
def strStartsWith (s pat : String) : Bool :=
  pat.toList.isPrefixOf s.toList

/-- Models Rust `str::ends_with(pat)`. -/
def strEndsWith (s pat : String) : Bool :=
  pat.toList.isSuffixOf s.toList

/-- First index at which `pat` occurs in `l` (models Rust `str::find` for
ASCII strings, where byte and character indices coincide). -/
def listFind : List Char → List Char → Option Nat
  | _, [] => none
  | pat, c :: rest =>
    if pat.isPrefixOf (c :: rest) then some 0
    else (listFind pat rest).map (· + 1)

/-- Models Rust `str::contains(pat)` for a nonempty needle (every needle the
crawler searches for is nonempty; `listFind` reports `none` on an empty
haystack, which is the only place it differs from Rust). -/
def strContainsSub (s pat : String) : Bool :=
  (listFind pat.toList s.toList).isSome

/-- Models Rust `str::drop`-style suffix taking: the string without its
first `n` characters (used for `&s[n..]` / `strip_prefix` results on
ASCII strings). -/
def strDrop (s : String) (n : Nat) : String :=
  String.mk (s.toList.drop n)

/-- The string without its last `n` characters (Rust `&s[..len-n]`). -/
def strDropRight (s : String) (n : Nat) : String :=
  String.mk (s.toList.take (s.toList.length - n))

/-- Models Rust `str::strip_suffix`. -/
def stripSfx (s pat : String) : Option String :=
  if strEndsWith s pat then some (strDropRight s pat.length) else none

/-- Models Rust `str::to_lowercase` (the strings it is applied to in the
modelled code are ASCII, where Unicode and ASCII lowercasing agree). -/
def strToLower (s : String) : String :=
  String.mk (s.toList.map Char.toLower)

/-- Core of `trim_start_matches`: repeatedly removes a matching
nonempty prefix from a character list. -/
def trimStartMatchesList : List Char → List Char → List Char
  | l, [] => l
  | l, p :: ps =>
    if h : (p :: ps).isPrefixOf l then
      trimStartMatchesList (l.drop (p :: ps).length) (p :: ps)
    else l
termination_by l _ => l.length
decreasing_by
  have hp := List.IsPrefix.length_le (List.isPrefixOf_iff_prefix.mp h)
  simp only [List.length_drop, List.length_cons] at hp ⊢
  omega

/-- Models Rust `str::trim_start_matches(pat)`: repeatedly removes the
prefix while it matches. -/
def trimStartMatches (s pat : String) : String :=
  String.mk (trimStartMatchesList s.toList pat.toList)

/-! ## The URL model

Models the `url::Url` values the crawler manipulates (the `url` crate
itself is an external collaborator).  A parsed URL either has an
authority (`cannot_be_a_base = false`; the crate lowercases the host at
parse time) or is a cannot-be-a-base URL such as `hyphanet:USK@...`
(`cannot_be_a_base = true`, `host = none`, and `path` is everything
after the scheme's colon).  `to_string` is the crate's serializer
restricted to the URL features the crawler produces. -/

structure Url where
  scheme : String
  host : Option String
  port : Option Nat
  path : String
  query : Option String
  fragment : Option String
  cannot_be_a_base : Bool
deriving DecidableEq, Repr

/-- Models `url::Url::to_string()` on the URL features the crawler uses. -/
def Url.to_string (u : Url) : String :=
  let authority :=
    if u.cannot_be_a_base then u.path
    else "//" ++ u.host.getD "" ++
      (match u.port with | some p => ":" ++ toString p | none => "") ++ u.path
  let q := match u.query with | some s => "?" ++ s | none => ""
  let f := match u.fragment with | some s => "#" ++ s | none => ""
  u.scheme ++ ":" ++ authority ++ q ++ f

/-- Models `url.host_str()`. -/
def Url.host_str (u : Url) : Option String := u.host

/-! ## Frontier policy functions (`crates/frontier/src/lib.rs`) -/

/-- `CrawlFrontier::normalize_url` (frontier `lib.rs:118-126`): remove the
fragment, strip a trailing slash from paths longer than one character,
serialize, lowercase the whole string. -/
def normalize_url (url : Url) : String :=
  let normalized : Url := { url with fragment := none }
  let path := normalized.path
  let normalized : Url :=
    if path.length > 1 ∧ strEndsWith path "/" then
      { normalized with path := strDropRight path 1 }
    else normalized
  strToLower normalized.to_string

/-- Character test `c.is_ascii_lowercase() || ('2'..='7').contains(&c)`. -/
def isBase32Char (c : Char) : Bool :=
  ('a' ≤ c ∧ c ≤ 'z') ∨ ('2' ≤ c ∧ c ≤ '7')

/-- Base58 character test from the `.bit` branch of
`classify_address_type`. -/
def isBase58Char (c : Char) : Bool :=
  c.isDigit ∨ ('A' ≤ c ∧ c ≤ 'H') ∨ ('J' ≤ c ∧ c ≤ 'N') ∨
  ('P' ≤ c ∧ c ≤ 'Z') ∨ ('a' ≤ c ∧ c ≤ 'k') ∨ ('m' ≤ c ∧ c ≤ 'z')

/-- `CrawlFrontier::classify_address_type` (frontier `lib.rs:145-196`).
Note the I2P `if let`/`else if` shape of the source: a `.b32.i2p` host
that fails the cryptographic test falls through past the `.i2p` branch
to the later checks. -/
def classify_address_type (host : String) : ℚ :=
  match stripSfx host ".onion" with
  | some name =>
    if name.length = 56 ∧ name.toList.all isBase32Char then 2 else 1
  | none =>
    let i2p : Option ℚ :=
      match stripSfx host ".b32.i2p" with
      | some name =>
        if (name.length = 52 ∨ 56 ≤ name.length) ∧ name.toList.all isBase32Char
        then some 2 else none
      | none => if strEndsWith host ".i2p" then some 1 else none
    match i2p with
    | some p => p
    | none =>
      let url_str := strToLower host
      if strContainsSub url_str "usk@" ∨ strContainsSub url_str "ssk@" ∨
         strContainsSub url_str "chk@" then 2
      else
        match stripSfx host ".bit" with
        | some name =>
          if (strStartsWith name "1" ∨ strStartsWith name "3") ∧
             26 ≤ name.length ∧ name.length ≤ 35 ∧
             name.toList.all isBase58Char
          then 2 else 1
        | none =>
          match stripSfx host ".loki" with
          | some name =>
            if name.length = 52 ∧ name.toList.all (fun c => 'a' ≤ c ∧ c ≤ 'z')
            then 2 else 1
          | none => 1

/-- `CrawlFrontier::calculate_priority` (frontier `lib.rs:135-141`). -/
def calculate_priority (url : Url) (depth : Nat) : ℚ :=
  let host := url.host_str.getD ""
  let base_priority := classify_address_type host
  base_priority / ((depth : ℚ) + 2)

/-- `is_v3_onion` (`src/seeds.rs:114-122`). -/
def is_v3_onion (host : String) : Bool :=
  match stripSfx host ".onion" with
  | none => false
  | some name => name.length = 56 ∧ name.toList.all isBase32Char

/-! ## Core types (`crates/core/src/types.rs`, `crates/core/src/error.rs`) -/

/-- `CrawlJob` (`types.rs:164-171`); `priority: f64` is modelled as `ℚ`. -/
structure CrawlJob where
  url : Url
  depth : Nat
  source_url : Option String
  network : String
  priority : ℚ
  retry_count : Nat
deriving DecidableEq, Repr

/-- `CrawlError` (`error.rs`), restricted to the variants whose payload the
modelled code paths construct or inspect. -/
inductive CrawlError where
  | Network (msg : String)
  | Timeout (secs : Nat)
  | BodyTooLarge (size max : Nat)
deriving DecidableEq, Repr

/-- The `thiserror`-derived `Display` of `CrawlError` (`error.rs`), as used
by `e.to_string()` in the orchestrator. -/
def CrawlError.toMessage : CrawlError → String
  | .Network msg => "network error: " ++ msg
  | .Timeout secs => "timeout after " ++ toString secs ++ "s"
  | .BodyTooLarge size max => "body too large: " ++ toString size ++
      " bytes (max " ++ toString max ++ ")"

/-! ## Association-list primitives

The frontier's `HashMap`/`DashMap`/`DashSet` and the `priority_queue`
crate's `PriorityQueue` are modelled as association lists (with unique
keys as an invariant, proved below).  `pqPush` follows the
`priority_queue` crate's documented `push`: if the key is already
present its priority is updated in place, otherwise the pair is
inserted. -/

/-- Association-list lookup (first match), models `HashMap::get`. -/
def mapGet {α : Type} (m : List (String × α)) (k : String) : Option α :=
  (m.find? (fun e => e.1 = k)).map Prod.snd

/-- Models `HashMap::insert`: replaces the value when the key is present,
otherwise appends the pair. -/
def mapInsert {α : Type} (m : List (String × α)) (k : String) (v : α) :
    List (String × α) :=
  if m.any (fun e => e.1 = k) then
    m.map (fun e => if e.1 = k then (e.1, v) else e)
  else m ++ [(k, v)]

/-- Models `HashMap::remove` (under the unique-keys invariant): deletes the
first entry with the given key. -/
def mapRemove {α : Type} (m : List (String × α)) (k : String) :
    List (String × α) :=
  m.eraseP (fun e => e.1 = k)

/-- Models `DashSet::insert`: returns `true` iff the element was newly
inserted, together with the updated set. -/
def setInsert (s : List String) (x : String) : Bool × List String :=
  if x ∈ s then (false, s) else (true, s ++ [x])

/-! ## `NetworkQueue` (frontier `lib.rs:43-75`) -/

/-- The priority queue of one network, keyed by normalized URL. -/
abbrev PQ := List (String × ℚ)

/-- `PriorityQueue::push`: update the priority in place when the key is
queued, insert otherwise (the crate's documented behaviour). -/
def pqPush (q : PQ) (k : String) (p : ℚ) : PQ :=
  if q.any (fun e => e.1 = k) then
    q.map (fun e => if e.1 = k then (e.1, p) else e)
  else q ++ [(k, p)]

/-- An entry of maximal priority (the crate pops a greatest-priority item;
its tie order among equal priorities is unspecified — this model
deterministically keeps the earliest maximal entry). -/
def pqFindMax : PQ → Option (String × ℚ)
  | [] => none
  | e :: rest =>
    match pqFindMax rest with
    | none => some e
    | some e' => if e.2 < e'.2 then some e' else some e

/-- `PriorityQueue::pop`: remove and return a greatest-priority entry. -/
def pqPop (q : PQ) : Option ((String × ℚ) × PQ) :=
  match pqFindMax q with
  | none => none
  | some e => some (e, q.eraseP (fun x => x.1 = e.1))

/-- `NetworkQueue` (frontier `lib.rs:43-46`): the priority queue plus its
own job storage. -/
structure NetworkQueue where
  queue : PQ
  jobs : List (String × CrawlJob)
deriving DecidableEq, Repr

/-- `NetworkQueue::new`. -/
def NetworkQueue.new : NetworkQueue := ⟨[], []⟩

/-- `NetworkQueue::push` (frontier `lib.rs:56-61`). -/
def NetworkQueue.push (nq : NetworkQueue) (normalized : String)
    (job : CrawlJob) : NetworkQueue :=
  { queue := pqPush nq.queue normalized job.priority
    jobs := mapInsert nq.jobs normalized job }

/-- `NetworkQueue::pop` (frontier `lib.rs:63-66`): pop the queue, then
remove and return the stored job (`None` when either is missing). -/
def NetworkQueue.pop (nq : NetworkQueue) : Option CrawlJob × NetworkQueue :=
  match pqPop nq.queue with
  | none => (none, nq)
  | some (e, q') => (mapGet nq.jobs e.1, ⟨q', mapRemove nq.jobs e.1⟩)

/-- `NetworkQueue::len` (frontier `lib.rs:68-70`). -/
def NetworkQueue.len (nq : NetworkQueue) : Nat := nq.queue.length

/-! ## `CrawlFrontier` (frontier `lib.rs:77-410`)

`host_last_seen` is prepared-but-unused politeness state and is not
modelled.  All operations are pure state-passing versions of the
originals. -/

structure Frontier where
  networks : List (String × NetworkQueue)
  seen_urls : List String
deriving DecidableEq, Repr

/-- `CrawlFrontier::new`. -/
def Frontier.new : Frontier := ⟨[], []⟩

/-- `get_network_queue` followed by a mutation of the queue under its
write lock: update the named network's queue, creating it
(`or_insert_with(NetworkQueue::new)`) when absent. -/
def updateNetwork (fr : Frontier) (network : String)
    (f : NetworkQueue → NetworkQueue) : Frontier :=
  if fr.networks.any (fun e => e.1 = network) then
    { fr with networks :=
        fr.networks.map (fun e => if e.1 = network then (e.1, f e.2) else e) }
  else { fr with networks := fr.networks ++ [(network, f NetworkQueue.new)] }

/-- `CrawlFrontier::push` (frontier `lib.rs:207-225`): retries bypass the
dedup check; fresh URLs are enqueued iff the normalized URL was newly
inserted into `seen_urls`. -/
def Frontier.push (fr : Frontier) (job : CrawlJob) : Bool × Frontier :=
  let normalized := normalize_url job.url
  let is_retry := 0 < job.retry_count
  let ins := setInsert fr.seen_urls normalized
  if ¬ is_retry ∧ ins.1 = false then (false, fr)
  else
    let fr := if is_retry then fr else { fr with seen_urls := ins.2 }
    (true, updateNetwork fr job.network (fun nq => nq.push normalized job))

/-- `CrawlFrontier::push_batch` (frontier `lib.rs:229-268`): partition into
retries and fresh jobs, dedup the fresh ones through `seen_urls`, then
enqueue every surviving job into its network's queue, returning the
count.  (The source groups by network before pushing; since each push
touches only its own network's queue, pushing in sequence yields the
same final state.) -/
def Frontier.push_batch (fr : Frontier) (jobs : List CrawlJob) :
    Nat × Frontier :=
  let parts := jobs.partition (fun j => 0 < j.retry_count)
  let dedup := parts.2.foldl
    (fun (acc : List CrawlJob × List String) job =>
      let ins := setInsert acc.2 (normalize_url job.url)
      if ins.1 then (acc.1 ++ [job], ins.2) else (acc.1, ins.2))
    ([], fr.seen_urls)
  let to_enqueue := parts.1 ++ dedup.1
  let fr := { fr with seen_urls := dedup.2 }
  to_enqueue.foldl
    (fun (acc : Nat × Frontier) job =>
      (acc.1 + 1,
       updateNetwork acc.2 job.network
         (fun nq => nq.push (normalize_url job.url) job)))
    (0, fr)

/-- `CrawlFrontier::push_back` (frontier `lib.rs:297-307`): re-enqueue jobs
into one network's queue without touching the dedup set. -/
def Frontier.push_back (fr : Frontier) (network : String)
    (jobs : List CrawlJob) : Frontier :=
  updateNetwork fr network
    (fun nq => jobs.foldl (fun nq job => nq.push (normalize_url job.url) job) nq)

/-- `CrawlFrontier::pop_for_network` (frontier `lib.rs:272-276`). -/
def Frontier.pop_for_network (fr : Frontier) (network : String) :
    Option CrawlJob × Frontier :=
  match mapGet fr.networks network with
  | none => (none, fr)
  | some nq =>
    let r := nq.pop
    (r.1, { fr with networks :=
        fr.networks.map (fun e => if e.1 = network then (e.1, r.2) else e) })

/-- `CrawlFrontier::pop_batch_for_network` (frontier `lib.rs:280-293`):
up to `n` pops from one network's queue. -/
def Frontier.pop_batch_for_network (fr : Frontier) (network : String)
    (n : Nat) : List CrawlJob × Frontier :=
  match n with
  | 0 => ([], fr)
  | n + 1 =>
    match fr.pop_for_network network with
    | (none, fr') => ([], fr')
    | (some job, fr') =>
      let r := fr'.pop_batch_for_network network n
      (job :: r.1, r.2)

/-- `CrawlFrontier::add_seeds` (frontier `lib.rs:355-386`): parse each
seed, mark it seen, and enqueue it at depth 0 bypassing dedup; count the
parseable ones.  The `url` crate's parser is an explicit parameter. -/
def Frontier.add_seeds (fr : Frontier) (parse : String → Option Url)
    (urls : List String) (network : String) : Nat × Frontier :=
  urls.foldl
    (fun (acc : Nat × Frontier) url_str =>
      match parse url_str with
      | none => acc
      | some url =>
        let normalized := normalize_url url
        let priority := calculate_priority url 0
        let job : CrawlJob :=
          { url := url, depth := 0, source_url := none, network := network
            priority := priority, retry_count := 0 }
        let fr := acc.2
        let fr := { fr with seen_urls := (setInsert fr.seen_urls normalized).2 }
        (acc.1 + 1, updateNetwork fr network (fun nq => nq.push normalized job)))
    (0, fr)

/-- Core of `CrawlFrontier::pop` (frontier `lib.rs:391-399`): walk the
network list, popping from each queue until a job appears. -/
def popListAux : List (String × NetworkQueue) →
    Option CrawlJob × List (String × NetworkQueue)
  | [] => (none, [])
  | (name, nq) :: rest =>
    match nq.pop with
    | (some job, nq') => (some job, (name, nq') :: rest)
    | (none, nq') =>
      let r := popListAux rest
      (r.1, (name, nq') :: r.2)

/-- `CrawlFrontier::pop`. -/
def Frontier.pop (fr : Frontier) : Option CrawlJob × Frontier :=
  let r := popListAux fr.networks
  (r.1, { fr with networks := r.2 })

/-- `CrawlFrontier::network_len` (frontier `lib.rs:327-332`). -/
def Frontier.network_len (fr : Frontier) (network : String) : Nat :=
  match mapGet fr.networks network with
  | some nq => nq.len
  | none => 0

/-- Lookup of the job stored for a normalized URL in one network's queue
(observer used by the theorems below; composed from the same maps the
source stores). -/
def Frontier.lookupJob (fr : Frontier) (network : String)
    (normalized : String) : Option CrawlJob :=
  match mapGet fr.networks network with
  | some nq => mapGet nq.jobs normalized
  | none => none

/-! ## Network drivers (`crates/networks/src/*.rs`, `crates/core/src/types.rs`)

Each driver is modelled by the record of trait methods the orchestrator
consults in the claims under verification: `can_handle`, `max_retries`,
`max_pages_per_domain`, `classify_error` and `name`.  `fetch` itself is
network I/O; its post-response processing for Hyphanet is modelled
separately below. -/

structure Driver where
  name : String
  can_handle : Url → Bool
  max_retries : Nat
  max_pages_per_domain : Nat
  classify_error : String → String

/-- `TorDriver::classify_error` (`tor.rs:183-204`). -/
def torClassifyError (error : String) : String :=
  let error_lower := strToLower error
  if strContainsSub error_lower "404" ∨ strContainsSub error_lower "410" ∨
     strContainsSub error_lower "not found" ∨
     strContainsSub error_lower "client error (connect)" ∨
     strContainsSub error_lower "invalid onion" then "dead"
  else if strContainsSub error_lower "timeout" ∨
     strContainsSub error_lower "circuit" ∨
     strContainsSub error_lower "sendrequest" then "unreachable"
  else "dead"

/-- `HyphanetDriver::classify_error` (`hyphanet.rs:233-257`). -/
def hyphanetClassifyError (error : String) : String :=
  let error_lower := strToLower error
  if strContainsSub error_lower "invalid key" ∨
     strContainsSub error_lower "malformed" ∨
     strContainsSub error_lower "bad key" ∨
     strContainsSub error_lower "404" then "dead"
  else if strContainsSub error_lower "route not found" ∨
     strContainsSub error_lower "data not found" ∨
     strContainsSub error_lower "recently failed" ∨
     strContainsSub error_lower "timeout" ∨
     strContainsSub error_lower "connection" ∨
     strContainsSub error_lower "fproxy error" then "unreachable"
  else "unreachable"

/-- The Tor driver's policy surface (`tor.rs`): `can_handle` tests the
`.onion` suffix of the host, `max_retries` is 3, and
`max_pages_per_domain` is the trait default of 100 (`types.rs:32-36`,
not overridden in `tor.rs`). -/
def torDriver : Driver :=
  { name := "tor"
    can_handle := fun u => match u.host_str with
      | some h => strEndsWith h ".onion"
      | none => false
    max_retries := 3
    max_pages_per_domain := 100
    classify_error := torClassifyError }

/-- The Hyphanet driver's policy surface (`hyphanet.rs`): `can_handle`
tests the scheme, `max_retries` is 12, `max_pages_per_domain` is the
trait default of 100. -/
def hyphanetDriver : Driver :=
  { name := "hyphanet"
    can_handle := fun u => u.scheme = "freenet" ∨ u.scheme = "hyphanet"
    max_retries := 12
    max_pages_per_domain := 100
    classify_error := hyphanetClassifyError }

/-! ## Orchestrator: the fetch-error branch (`src/crawl.rs:587-622`) -/

/-- The row the orchestrator persists through `storage.mark_dead(...)`. -/
structure DeadRecord where
  url : String
  network : String
  domain : String
  retry_count : Nat
  last_error : String
  failure_type : String
deriving DecidableEq, Repr

/-- The `Err(e)` arm of the fetch match in the worker loop
(`crawl.rs:589-621`): below the retry budget, push a clone of the job
with `retry_count + 1` and `priority * 0.5` (no sleep); at or above the
budget, insert the URL into the in-memory dead set and emit the
`mark_dead` row with `classify_error` of the stringified error.
Returns the updated frontier, the updated dead set, and the persisted
row if any. -/
def handleFetchError (driver : Driver) (fr : Frontier) (dead : List String)
    (job : CrawlJob) (e : CrawlError) :
    Frontier × List String × Option DeadRecord :=
  let retries := job.retry_count
  let max_retries := driver.max_retries
  if retries < max_retries then
    let retry_job : CrawlJob :=
      { job with retry_count := retries + 1, priority := job.priority * (1 / 2) }
    ((fr.push retry_job).2, dead, none)
  else
    let err_msg := e.toMessage
    let domain := job.url.host_str.getD "unknown"
    let failure_type := driver.classify_error err_msg
    (fr, (setInsert dead job.url.to_string).2,
     some { url := job.url.to_string, network := job.network, domain := domain
            retry_count := retries, last_error := err_msg
            failure_type := failure_type })

/-! ## Orchestrator: `make_crawl_job` (`src/crawl.rs:32-83`) -/

/-- `make_crawl_job`: create a `CrawlJob` from a discovered URL string, or
`none` if it cannot be handled.  The `url` crate's parser is an
explicit parameter. -/
def make_crawl_job (parse : String → Option Url) (url_str : String)
    (depth : Nat) (source_url : Url) (drivers : List Driver) :
    Option CrawlJob :=
  match parse url_str with
  | none => none
  | some parsed =>
    let scheme := parsed.scheme
    if scheme ≠ "http" ∧ scheme ≠ "https" ∧ scheme ≠ "hyphanet" ∧
       scheme ≠ "freenet" then none
    else if ¬ drivers.any (fun d => d.can_handle parsed) then none
    else
      let network? : Option String :=
        if scheme = "hyphanet" ∨ scheme = "freenet" then
          if strStartsWith url_str "hyphanet://" ∨
             strStartsWith url_str "freenet://" then none
          else some "hyphanet"
        else
          let host := parsed.host_str.getD ""
          if strEndsWith host ".onion" then
            if ¬ is_v3_onion host then none else some "tor"
          else if strEndsWith host ".i2p" then some "i2p"
          else if strEndsWith host ".bit" then some "zeronet"
          else if strEndsWith host ".loki" then some "lokinet"
          else none
      match network? with
      | none => none
      | some network =>
        let priority := calculate_priority parsed (depth + 1)
        some { url := parsed, depth := depth + 1
               source_url := some source_url.to_string
               network := network, priority := priority, retry_count := 0 }

/-! ## Orchestrator: the per-domain page counter (`src/crawl.rs:682-700`) -/

/-- One successful parse against a host's counter: `fetch_add(1)` returns
the previous value `domain_page_count`; the page proceeds to discovery
and storage iff `domain_page_count < max_pages` (the source skips it —
with a warning — when `domain_page_count >= max_pages`).  Returns the
new counter value and whether the page proceeded. -/
def domainCapStep (max_pages count : Nat) : Nat × Bool :=
  let domain_page_count := count
  (count + 1, if max_pages ≤ domain_page_count then false else true)

/-- `n` consecutive successful parses on one host starting from a zero
counter: final counter value and how many pages proceeded. -/
def runParses (max_pages : Nat) : Nat → Nat × Nat
  | 0 => (0, 0)
  | n + 1 =>
    let acc := runParses max_pages n
    let step := domainCapStep max_pages acc.1
    (step.1, acc.2 + if step.2 then 1 else 0)

/-! ## UTF-8 (Rust `std::str::from_utf8` / `String::from_utf8_lossy`)

Bytes are `Nat < 256`.  The lossy decoder implements the Unicode
"maximal subpart" substitution Rust uses: each maximal prefix of a
well-formed sequence that cannot be completed becomes one U+FFFD, and
decoding resumes at the offending byte. -/

/-- The UTF-8 continuation-byte test `0x80..=0xBF`. -/
def contByte (b : Nat) : Bool := 0x80 ≤ b ∧ b ≤ 0xBF

/-- Valid second bytes of a three-byte sequence (depends on the leading
byte: `E0` excludes overlongs, `ED` excludes surrogates). -/
def snd3Ok (b c1 : Nat) : Bool :=
  if b = 0xE0 then 0xA0 ≤ c1 ∧ c1 ≤ 0xBF
  else if b = 0xED then 0x80 ≤ c1 ∧ c1 ≤ 0x9F
  else contByte c1

/-- Valid second bytes of a four-byte sequence (`F0` excludes overlongs,
`F4` caps at U+10FFFF). -/
def snd4Ok (b c1 : Nat) : Bool :=
  if b = 0xF0 then 0x90 ≤ c1 ∧ c1 ≤ 0xBF
  else if b = 0xF4 then 0x80 ≤ c1 ∧ c1 ≤ 0x8F
  else contByte c1

/-- U+FFFD REPLACEMENT CHARACTER. -/
def replChar : Char := Char.ofNat 0xFFFD

/-- Rust `String::from_utf8_lossy`, producing the decoded characters.
Implemented with a fuel argument (one unit per decoded item, so the
input length is always enough fuel) to keep the recursion structural. -/
def utf8DecodeLossyFuel : Nat → List Nat → List Char
  | 0, _ => []
  | _, [] => []
  | fuel + 1, b :: rest =>
    if b < 0x80 then Char.ofNat b :: utf8DecodeLossyFuel fuel rest
    else if 0xC2 ≤ b ∧ b ≤ 0xDF then
      match rest with
      | [] => [replChar]
      | c1 :: rest1 =>
        if contByte c1 then
          Char.ofNat ((b - 0xC0) * 0x40 + (c1 - 0x80)) :: utf8DecodeLossyFuel fuel rest1
        else replChar :: utf8DecodeLossyFuel fuel rest
    else if 0xE0 ≤ b ∧ b ≤ 0xEF then
      match rest with
      | [] => [replChar]
      | c1 :: rest1 =>
        if snd3Ok b c1 then
          match rest1 with
          | [] => [replChar]
          | c2 :: rest2 =>
            if contByte c2 then
              Char.ofNat ((b - 0xE0) * 0x1000 + (c1 - 0x80) * 0x40 + (c2 - 0x80)) ::
                utf8DecodeLossyFuel fuel rest2
            else replChar :: utf8DecodeLossyFuel fuel rest1
        else replChar :: utf8DecodeLossyFuel fuel rest
    else if 0xF0 ≤ b ∧ b ≤ 0xF4 then
      match rest with
      | [] => [replChar]
      | c1 :: rest1 =>
        if snd4Ok b c1 then
          match rest1 with
          | [] => [replChar]
          | c2 :: rest2 =>
            if contByte c2 then
              match rest2 with
              | [] => [replChar]
              | c3 :: rest3 =>
                if contByte c3 then
                  Char.ofNat ((b - 0xF0) * 0x40000 + (c1 - 0x80) * 0x1000 +
                      (c2 - 0x80) * 0x40 + (c3 - 0x80)) :: utf8DecodeLossyFuel fuel rest3
                else replChar :: utf8DecodeLossyFuel fuel rest2
            else replChar :: utf8DecodeLossyFuel fuel rest1
        else replChar :: utf8DecodeLossyFuel fuel rest
    else replChar :: utf8DecodeLossyFuel fuel rest

/-- Rust `String::from_utf8_lossy`. -/
def utf8DecodeLossy (l : List Nat) : List Char :=
  utf8DecodeLossyFuel l.length l

/-- Rust `std::str::from_utf8`: strict decoding, `none` on any invalid
byte sequence. -/
def utf8DecodeStrict : List Nat → Option (List Char)
  | [] => some []
  | b :: rest =>
    if b < 0x80 then (utf8DecodeStrict rest).map (Char.ofNat b :: ·)
    else if 0xC2 ≤ b ∧ b ≤ 0xDF then
      match rest with
      | [] => none
      | c1 :: rest1 =>
        if contByte c1 then
          (utf8DecodeStrict rest1).map
            (Char.ofNat ((b - 0xC0) * 0x40 + (c1 - 0x80)) :: ·)
        else none
    else if 0xE0 ≤ b ∧ b ≤ 0xEF then
      match rest with
      | c1 :: c2 :: rest2 =>
        if snd3Ok b c1 ∧ contByte c2 then
          (utf8DecodeStrict rest2).map
            (Char.ofNat ((b - 0xE0) * 0x1000 + (c1 - 0x80) * 0x40 + (c2 - 0x80)) :: ·)
        else none
      | _ => none
    else if 0xF0 ≤ b ∧ b ≤ 0xF4 then
      match rest with
      | c1 :: c2 :: c3 :: rest3 =>
        if snd4Ok b c1 ∧ contByte c2 ∧ contByte c3 then
          (utf8DecodeStrict rest3).map
            (Char.ofNat ((b - 0xF0) * 0x40000 + (c1 - 0x80) * 0x1000 +
                (c2 - 0x80) * 0x40 + (c3 - 0x80)) :: ·)
        else none
      | _ => none
    else none

/-- UTF-8 encoding of one scalar value (the byte serialization Rust uses
for `String` contents). -/
def utf8EncodeChar (c : Nat) : List Nat :=
  if c < 0x80 then [c]
  else if c < 0x800 then [0xC0 + c / 0x40, 0x80 + c % 0x40]
  else if c < 0x10000 then
    [0xE0 + c / 0x1000, 0x80 + c / 0x40 % 0x40, 0x80 + c % 0x40]
  else
    [0xF0 + c / 0x40000, 0x80 + c / 0x1000 % 0x40, 0x80 + c / 0x40 % 0x40,
     0x80 + c % 0x40]

/-- The UTF-8 bytes of a Lean `String` (= the bytes of the Rust `String`
it models). -/
def utf8Encode (s : String) : List Nat :=
  (s.toList.map (fun c => utf8EncodeChar c.toNat)).flatten

/-! ## SHA-256 (the `sha2` crate as used in `parse_response`)

A straightforward FIPS 180-4 implementation over byte lists, with
32-bit words as `Nat` reduced modulo `2^32`. -/

/-- Truncate to a 32-bit word. -/
def w32 (x : Nat) : Nat := x % 4294967296

/-- Right rotation of a 32-bit word. -/
def rotr32 (n x : Nat) : Nat := x / 2 ^ n + x % 2 ^ n * 2 ^ (32 - n)

/-- Bitwise complement of a 32-bit word. -/
def not32 (x : Nat) : Nat := 4294967295 - x

def ch32 (e f g : Nat) : Nat := (e &&& f) ^^^ (not32 e &&& g)

def maj32 (a b c : Nat) : Nat := (a &&& b) ^^^ (a &&& c) ^^^ (b &&& c)

def bigSigma0 (x : Nat) : Nat := rotr32 2 x ^^^ rotr32 13 x ^^^ rotr32 22 x

def bigSigma1 (x : Nat) : Nat := rotr32 6 x ^^^ rotr32 11 x ^^^ rotr32 25 x

def smallSigma0 (x : Nat) : Nat := rotr32 7 x ^^^ rotr32 18 x ^^^ x / 2 ^ 3

def smallSigma1 (x : Nat) : Nat := rotr32 17 x ^^^ rotr32 19 x ^^^ x / 2 ^ 10

/-- The SHA-256 round constants (FIPS 180-4, written in decimal). -/
def K256 : List Nat :=
  [1116352408, 1899447441, 3049323471, 3921009573,
   961987163, 1508970993, 2453635748, 2870763221,
   3624381080, 310598401, 607225278, 1426881987,
   1925078388, 2162078206, 2614888103, 3248222580,
   3835390401, 4022224774, 264347078, 604807628,
   770255983, 1249150122, 1555081692, 1996064986,
   2554220882, 2821834349, 2952996808, 3210313671,
   3336571891, 3584528711, 113926993, 338241895,
   666307205, 773529912, 1294757372, 1396182291,
   1695183700, 1986661051, 2177026350, 2456956037,
   2730485921, 2820302411, 3259730800, 3345764771,
   3516065817, 3600352804, 4094571909, 275423344,
   430227734, 506948616, 659060556, 883997877,
   958139571, 1322822218, 1537002063, 1747873779,
   1955562222, 2024104815, 2227730452, 2361852424,
   2428436474, 2756734187, 3204031479, 3329325298]

/-- The SHA-256 initial hash value (FIPS 180-4, written in decimal). -/
def H256 : List Nat :=
  [1779033703, 3144134277, 1013904242, 2773480762,
   1359893119, 2600822924, 528734635, 1541459225]

/-- FIPS 180-4 padding: `0x80`, zeros to 56 mod 64, then the bit length
as eight big-endian bytes. -/
def padMessage (msg : List Nat) : List Nat :=
  let len := msg.length
  let zeros := (64 - (len + 9) % 64) % 64
  let L := len * 8
  msg ++ [0x80] ++ List.replicate zeros 0 ++
    [L / 2 ^ 56 % 256, L / 2 ^ 48 % 256, L / 2 ^ 40 % 256, L / 2 ^ 32 % 256,
     L / 2 ^ 24 % 256, L / 2 ^ 16 % 256, L / 2 ^ 8 % 256, L % 256]

/-- Big-endian packing of bytes into 32-bit words. -/
def bytesToWords : List Nat → List Nat
  | a :: b :: c :: d :: rest =>
    (((a * 256 + b) * 256 + c) * 256 + d) :: bytesToWords rest
  | _ => []

/-- Split a word list into 16-word blocks (any short final group is kept
as-is; padded SHA-256 input is always a multiple of 16 words). -/
def toBlocks : List Nat → List (List Nat)
  | [] => []
  | w0 :: w1 :: w2 :: w3 :: w4 :: w5 :: w6 :: w7 ::
    w8 :: w9 :: w10 :: w11 :: w12 :: w13 :: w14 :: w15 :: rest =>
    [w0, w1, w2, w3, w4, w5, w6, w7, w8, w9, w10, w11, w12, w13, w14, w15] ::
      toBlocks rest
  | ws => [ws]

/-- One message-schedule extension step. -/
def scheduleStep (w : List Nat) : List Nat :=
  let n := w.length
  w ++ [w32 (smallSigma1 (w.getD (n - 2) 0) + w.getD (n - 7) 0 +
             smallSigma0 (w.getD (n - 15) 0) + w.getD (n - 16) 0)]

/-- Extend a 16-word block to the 64-word message schedule. -/
def schedule (block : List Nat) : List Nat :=
  Nat.rec block (fun _ w => scheduleStep w) 48

/-- One SHA-256 round on the eight-word working state. -/
def roundFn (st : List Nat) (kw : Nat × Nat) : List Nat :=
  match st with
  | [a, b, c, d, e, f, g, h] =>
    let t1 := w32 (h + bigSigma1 e + ch32 e f g + kw.1 + kw.2)
    let t2 := w32 (bigSigma0 a + maj32 a b c)
    [w32 (t1 + t2), a, b, c, w32 (d + t1), e, f, g]
  | st => st

/-- Compress one block into the hash state. -/
def sha256Compress (h : List Nat) (block : List Nat) : List Nat :=
  let st := (K256.zip (schedule block)).foldl roundFn h
  (h.zip st).map (fun p => w32 (p.1 + p.2))

/-- SHA-256 of a byte list, as eight 32-bit words. -/
def sha256Words (msg : List Nat) : List Nat :=
  (toBlocks (bytesToWords (padMessage msg))).foldl sha256Compress H256

/-- Lowercase hexadecimal digit. -/
def hexDigit (n : Nat) : Char :=
  if n < 10 then Char.ofNat (48 + n) else Char.ofNat (87 + n)

/-- Eight lowercase hex digits of a 32-bit word. -/
def wordHex (w : Nat) : List Char :=
  [hexDigit (w / 2 ^ 28 % 16), hexDigit (w / 2 ^ 24 % 16),
   hexDigit (w / 2 ^ 20 % 16), hexDigit (w / 2 ^ 16 % 16),
   hexDigit (w / 2 ^ 12 % 16), hexDigit (w / 2 ^ 8 % 16),
   hexDigit (w / 2 ^ 4 % 16), hexDigit (w % 16)]

/-- `format!("{:x}", hasher.finalize())`: the 64-char lowercase hex
digest. -/
def sha256Hex (msg : List Nat) : String :=
  String.mk (((sha256Words msg).map wordHex).flatten)

/-! ## The parser (`crates/parser/src/lib.rs`) -/

/-- `FetchResponse` (`types.rs:90-101`), restricted to the fields
`parse_response` reads (`headers`/`fetched_at`/`response_time_ms` feed
only metadata fields that are out of the modelled claims). -/
structure FetchResponse where
  url : Url
  final_url : Url
  status : Nat
  body : List Nat
  content_type : Option String
  network : String
  domain : String
deriving DecidableEq, Repr

/-- `PageData` (`types.rs:104-124`), restricted to the fields produced by
the modelled pipeline steps of `parse_response` (the HTML pass and the
entity pass are out-of-scope collaborators for the claims at hand). -/
structure PageData where
  url : String
  final_url : String
  network : String
  raw_html : String
  raw_html_hash : String
  status_code : Nat
  domain : String
  content_type : Option String
deriving DecidableEq, Repr

/-- `MAX_PARSE_SIZE` (`parser/lib.rs:9`): 5 MB. -/
def MAX_PARSE_SIZE : Nat := 5 * 1024 * 1024

/-- `parse_response` (`parser/lib.rs:41-131`), modelling the body
truncation, the lossy UTF-8 decode, and the SHA-256 hash: the body is
truncated to `MAX_PARSE_SIZE` before parsing, `raw_html` is the lossy
decode of the truncated body (`body_str.to_string()`), and
`raw_html_hash` is the hex SHA-256 of `resp.body` — the full,
untruncated raw byte vector (`hasher.update(&resp.body)`,
`parser/lib.rs:93-95`). -/
def parse_response (resp : FetchResponse) : PageData :=
  let body :=
    if resp.body.length > MAX_PARSE_SIZE then resp.body.take MAX_PARSE_SIZE
    else resp.body
  let body_str := String.mk (utf8DecodeLossy body)
  let raw_html_hash := sha256Hex resp.body
  { url := resp.url.to_string
    final_url := resp.final_url.to_string
    network := resp.network
    raw_html := body_str
    raw_html_hash := raw_html_hash
    status_code := resp.status
    domain := resp.domain
    content_type := resp.content_type }

/-! ## Hyphanet fetch post-processing (`crates/networks/src/hyphanet.rs`) -/

/-- The `<title>...</title>` extraction of `HyphanetDriver::fetch`
(`hyphanet.rs:174-176`): the first `<title>` occurrence, then the first
`</title>` after it; the title is the text strictly between them. -/
def extractTitle (text : List Char) : Option (List Char) :=
  match listFind "<title>".toList text with
  | none => none
  | some start_idx =>
    match listFind "</title>".toList (text.drop start_idx) with
    | none => none
    | some end_idx => some ((text.drop (start_idx + 7)).take (end_idx - 7))

/-- The error-phrase test of `HyphanetDriver::fetch`
(`hyphanet.rs:177-183`). -/
def isFproxyErrorTitle (title : String) : Bool :=
  strContainsSub title "not found" ∨ strContainsSub title "Not found" ∨
  strContainsSub title "Invalid Key" ∨ strContainsSub title "Set Up Freenet" ∨
  strContainsSub title "Route not found" ∨ strContainsSub title "Data not found" ∨
  strContainsSub title "Permanent Redirect"

/-- The post-response half of `HyphanetDriver::fetch`
(`hyphanet.rs:147-207`), from the fully read body onward: the body-size
guard (`hyphanet.rs:164-169`), then the FProxy error-page detection —
performed only when the body is valid UTF-8 — then the successful
`FetchResponse`.  The transport, headers and timing are external; the
function takes the already-read status and body. -/
def hyphanetFetchTail (url : Url) (max_body_size : Nat) (status : Nat)
    (content_type : Option String) (body : List Nat) (domain : String) :
    Except CrawlError FetchResponse :=
  if body.length > max_body_size then
    .error (.BodyTooLarge body.length max_body_size)
  else
    let errCheck : Option CrawlError :=
      match utf8DecodeStrict body with
      | none => none
      | some text =>
        match extractTitle text with
        | none => none
        | some title =>
          if isFproxyErrorTitle (String.mk title) then
            some (.Network ("FProxy error page: " ++ String.mk title))
          else none
    match errCheck with
    | some e => .error e
    | none =>
      .ok { url := url, final_url := url, status := status, body := body
            content_type := content_type, network := "hyphanet"
            domain := domain }

/-! ## Link extraction (`crates/parser/src/html.rs:124-212`) -/

/-- `ExtractedLink` (`types.rs:140-149`). -/
structure ExtractedLink where
  url : String
  anchor_text : Option String
  is_onion : Bool
  is_i2p : Bool
  is_zeronet : Bool
  is_hyphanet : Bool
  is_lokinet : Bool
  is_external : Bool
deriving DecidableEq, Repr

/-- The per-`<a href>` body of `extract_links` (`html.rs:131-210`).  The
DOM iteration and anchor-text collection belong to the out-of-scope
HTML library, so the href and the (already trimmed) anchor text arrive
as arguments, and the `url` crate's `base_url.join(href)` is the
explicit `join` parameter. -/
def extract_link (join : Url → String → Option Url) (base_url : Url)
    (base_domain : String) (href : String) (anchor_text : Option String) :
    Option ExtractedLink :=
  if strStartsWith href "javascript:" ∨ strStartsWith href "mailto:" ∨
     strStartsWith href "tel:" ∨ strStartsWith href "data:" ∨
     strStartsWith href "#" ∨ href = "/" then none
  else if (base_url.scheme = "hyphanet" ∨ base_url.scheme = "freenet") ∧
     (strStartsWith href "/USK@" ∨ strStartsWith href "/SSK@" ∨
      strStartsWith href "/CHK@" ∨ strStartsWith href "/freenet:" ∨
      strStartsWith href "/hyphanet:") then
    let key :=
      if strStartsWith href "/freenet:" then strDrop href "/freenet:".length
      else if strStartsWith href "/hyphanet:" then strDrop href "/hyphanet:".length
      else strDrop href 1
    some { url := "hyphanet:" ++ key, anchor_text := anchor_text
           is_onion := false, is_i2p := false, is_zeronet := false
           is_hyphanet := true, is_lokinet := false, is_external := true }
  else
    match join base_url href with
    | none => none
    | some resolved =>
      let host := resolved.host_str.getD ""
      let path := resolved.path
      let final_pair : String × Bool :=
        if resolved.scheme = "http" ∨ resolved.scheme = "https" then
          if strStartsWith path "/freenet:" ∨ strStartsWith path "/hyphanet:" then
            ("hyphanet:" ++
               trimStartMatches (trimStartMatches path "/freenet:") "/hyphanet:",
             true)
          else if strStartsWith path "/USK@" ∨ strStartsWith path "/SSK@" ∨
             strStartsWith path "/CHK@" then
            ("hyphanet:" ++ path, true)
          else (resolved.to_string, false)
        else (resolved.to_string,
              resolved.scheme = "hyphanet" ∨ resolved.scheme = "freenet")
      some { url := final_pair.1, anchor_text := anchor_text
             is_onion := strEndsWith host ".onion"
             is_i2p := strEndsWith host ".i2p"
             is_zeronet := strEndsWith host ".bit"
             is_hyphanet := final_pair.2
             is_lokinet := strEndsWith host ".loki"
             is_external := host ≠ base_domain }

/-! ## A worker's repeated-failure run (`src/crawl.rs:552-622`)

The slice of the worker loop exercised by the retry-budget scenario:
pop a job for the worker's network, skip it when it is in the dead set
(`crawl.rs:573`), otherwise fail the fetch and run the error branch.
The simulation records each popped job's priority and every `mark_dead`
row. -/

structure SimState where
  fr : Frontier
  dead : List String
  recs : List DeadRecord
  popped : List ℚ
deriving DecidableEq, Repr

/-- One iteration of the worker loop in which the fetch fails with `e`. -/
def simFailStep (driver : Driver) (network : String) (e : CrawlError)
    (st : SimState) : SimState :=
  match st.fr.pop_for_network network with
  | (none, fr') => { st with fr := fr' }
  | (some job, fr') =>
    if st.dead.contains job.url.to_string then { st with fr := fr' }
    else
      let r := handleFetchError driver fr' st.dead job e
      { fr := r.1, dead := r.2.1, recs := st.recs ++ r.2.2.toList
        popped := st.popped ++ [job.priority] }

/-- `n` consecutive failing iterations. -/
def simFailN (driver : Driver) (network : String) (e : CrawlError) :
    Nat → SimState → SimState
  | 0, st => st
  | n + 1, st => simFailN driver network e n (simFailStep driver network e st)

/-! ## Concrete instances used by the specification's scenarios

URL values are written as the `url` crate parses the scenario's
strings (hosts lowercased; `hyphanet:` URLs are cannot-be-a-base). -/

/-- `url::Url::parse("http://X.ONION/a#f")`. -/
def urlXaFrag : Url :=
  ⟨"http", some "x.onion", none, "/a", none, some "f", false⟩

/-- `url::Url::parse("http://x.onion/a/")`. -/
def urlXaSlash : Url :=
  ⟨"http", some "x.onion", none, "/a/", none, none, false⟩

/-- `url::Url::parse("http://x.onion/p")`. -/
def urlXp : Url := ⟨"http", some "x.onion", none, "/p", none, none, false⟩

/-- `url::Url::parse("hyphanet:USK@K/site/5/")`. -/
def uskUrl : Url := ⟨"hyphanet", none, none, "USK@K/site/5/", none, none, true⟩

/-- `url::Url::parse("http://shortname.onion/")`. -/
def shortOnionUrl : Url :=
  ⟨"http", some "shortname.onion", none, "/", none, none, false⟩

/-- Models `url::Url::parse` (external crate) on the concrete seed string
of the v3-gate scenario. -/
def urlParseTable : String → Option Url := fun s =>
  if s = "http://shortname.onion/" then some shortOnionUrl else none

/-- The dedup-scenario job for `http://X.ONION/a#f`. -/
def jobXaFrag : CrawlJob :=
  { url := urlXaFrag, depth := 0, source_url := none, network := "tor"
    priority := 1, retry_count := 0 }

/-- The dedup-scenario job for `http://x.onion/a/`. -/
def jobXaSlash : CrawlJob :=
  { url := urlXaSlash, depth := 0, source_url := none, network := "tor"
    priority := 1, retry_count := 0 }

/-- The retry-budget scenario job for `http://x.onion/p` at priority `p`. -/
def jobXp (p : ℚ) : CrawlJob :=
  { url := urlXp, depth := 0, source_url := none, network := "tor"
    priority := p, retry_count := 0 }

/-- The FProxy error-page scenario body,
`<html><title>Data not found</title></html>`, as bytes. -/
def fproxyBody : List Nat :=
  "<html><title>Data not found</title></html>".toList.map Char.toNat

/-- A 7-byte response whose body is not valid UTF-8 (its single non-ASCII
byte `0xFF` decodes lossily to U+FFFD). -/
def respFF : FetchResponse :=
  { url := urlXp, final_url := urlXp, status := 200
    body := [0x68, 0x69, 0xFF, 0x68, 0x69, 0x68, 0x69]
    content_type := some "text/html", network := "tor", domain := "x.onion" }

/-- The explicit state after the Tor job for `http://x.onion/p` at
priority `q` and retry count `k` is the only queued job. -/
def torOnlyJobState (q : ℚ) (k : Nat) : Frontier :=
  { networks :=
      [("tor",
        { queue := [("http://x.onion/p", q)]
          jobs := [("http://x.onion/p",
            { url := urlXp, depth := 0, source_url := none, network := "tor"
              priority := q, retry_count := k })] })]
    seen_urls := ["http://x.onion/p"] }

/-- The explicit state after popping the last Tor job. -/
def torDrainedState : Frontier :=
  { networks := [("tor", { queue := [], jobs := [] })]
    seen_urls := ["http://x.onion/p"] }


/-- A fresh Hyphanet job for `hyphanet:USK@K/site/5/` at priority 1. -/
def jobUsk : CrawlJob :=
  { url := uskUrl, depth := 0, source_url := none, network := "hyphanet"
    priority := 1, retry_count := 0 }

/-- The same job with its Hyphanet retry budget (12) exhausted. -/
def jobUsk12 : CrawlJob := { jobUsk with retry_count := 12 }

/-- A small all-ASCII response (body `"hi"`). -/
def respHi : FetchResponse :=
  { url := urlXp, final_url := urlXp, status := 200, body := [104, 105]
    content_type := some "text/html", network := "tor", domain := "x.onion" }

/-- The per-network-queue alignment invariant: the priority queue's keys
are duplicate-free and are exactly the keys of the `jobs` map. -/
def NQInv (nq : NetworkQueue) : Prop :=
  (nq.queue.map Prod.fst).Nodup ∧
  List.Perm (nq.queue.map Prod.fst) (nq.jobs.map Prod.fst)

instance (nq : NetworkQueue) : Decidable (NQInv nq) := by
  unfold NQInv
  infer_instance

/-- Every network queue of the frontier satisfies `NQInv`. -/
def FrInv (fr : Frontier) : Prop :=
  ∀ p ∈ fr.networks, NQInv p.2

instance (fr : Frontier) : Decidable (FrInv fr) :=
  List.decidableBAll _ _

/-- A retry of the `http://x.onion/p` job at half priority. -/
def jobXp1Retry : CrawlJob :=
  { url := urlXp, depth := 0, source_url := none, network := "tor"
    priority := 1 / 2, retry_count := 1 }

/-!
# Theorems
-/

/-- The counter/processed pair after `n` successful parses. -/
theorem runParses_eq (max_pages : Nat) :
    ∀ n, runParses max_pages n = (n, min n max_pages) := by
  intro n
  induction n with
  | zero => simp [runParses]
  | succ n ih =>
    simp only [runParses, ih, domainCapStep]
    by_cases h : max_pages ≤ n
    · simp [h]
      omega
    · simp [h]
      omega

/-- C3 (invariants): pages processed on one host never exceed the
network's `max_pages_per_domain`.  Every successful parse increments
the host's counter; a parse proceeds to discovery and storage iff the
counter's previous value is below the cap, so after `n` successful
parses exactly `min n cap` pages were processed, never more than the
cap.  With the Tor cap of 100, the 101st successful parse (previous
counter value 100) increments the counter to 101 but is dropped, and
exactly 100 of the 101 parses were processed. -/
theorem C3_per_domain_page_cap :
    (∀ max_pages n : Nat,
      (runParses max_pages n).1 = n ∧
      (runParses max_pages n).2 = min n max_pages ∧
      (runParses max_pages n).2 ≤ max_pages) ∧
    torDriver.max_pages_per_domain = 100 ∧
    domainCapStep 100 100 = (101, false) ∧
    (runParses 100 101).2 = 100 := by
  refine ⟨fun max_pages n => ?_, rfl, rfl, by decide⟩
  have h := runParses_eq max_pages n
  rw [h]
  exact ⟨rfl, rfl, Nat.min_le_right _ _⟩

/-- C6 (code bug): the spec's priority table assigns Hyphanet
USK@/SSK@/CHK@ URLs base priority 2.0, and the source's own comments on
`classify_address_type` agree ("Cryptographic Hyphanet key", return
2.0) — but `calculate_priority` passes `url.host_str().unwrap_or("")`
to `classify_address_type`, and a `hyphanet:` URL is cannot-be-a-base,
so its host is `None`: the classifier sees `""`, the `usk@` branch can
never fire (an authority host cannot contain `@`), and the default base
1.0 applies.  At the failing input `hyphanet:USK@K/site/5/`, depth 0,
the code yields 1/2 where the claim requires 2.0/(0+2) = 1. -/
theorem C6_hyphanet_priority_is_half :
    calculate_priority uskUrl 0 = 1 / 2 ∧
    calculate_priority uskUrl 0 ≠ 2 / ((0 : ℚ) + 2) ∧
    (∀ d : Nat, calculate_priority uskUrl d = 1 / ((d : ℚ) + 2)) ∧
    classify_address_type "" = 1 := by
  have h : classify_address_type "" = 1 := by decide
  refine ⟨?_, ?_, fun d => ?_, h⟩
  · simp [calculate_priority, uskUrl, Url.host_str, h]
  · simp [calculate_priority, uskUrl, Url.host_str, h]
  · simp [calculate_priority, uskUrl, Url.host_str, h]

/-! ### Association-list lemmas -/

theorem mapGet_cons {α : Type} (e : String × α) (l : List (String × α))
    (k : String) :
    mapGet (e :: l) k = if e.1 = k then some e.2 else mapGet l k := by
  by_cases h : e.1 = k <;> simp [mapGet, List.find?_cons, h]

theorem mapGet_isSome {α : Type} (l : List (String × α)) (k : String) :
    (mapGet l k).isSome = l.any (fun e => e.1 = k) := by
  induction l with
  | nil => simp [mapGet]
  | cons e t ih =>
    by_cases h : e.1 = k <;> simp [mapGet_cons, h, ih]

theorem mapGet_map_update {α : Type} (l : List (String × α)) (k : String)
    (f : α → α) :
    mapGet (l.map (fun e => if e.1 = k then (e.1, f e.2) else e)) k
      = (mapGet l k).map f := by
  induction l with
  | nil => simp [mapGet]
  | cons e t ih =>
    by_cases h : e.1 = k <;> simp [mapGet_cons, h, ih]

theorem mapGet_append {α : Type} (l l' : List (String × α)) (k : String) :
    mapGet (l ++ l') k = ((mapGet l k).orElse (fun _ => mapGet l' k)) := by
  induction l with
  | nil => simp [mapGet]
  | cons e t ih =>
    by_cases h : e.1 = k <;> simp [mapGet_cons, h, ih]

/-- Looking up the updated network after `updateNetwork`. -/
theorem mapGet_updateNetwork (fr : Frontier) (net : String)
    (f : NetworkQueue → NetworkQueue) :
    mapGet (updateNetwork fr net f).networks net
      = some (f ((mapGet fr.networks net).getD NetworkQueue.new)) := by
  unfold updateNetwork
  by_cases h : fr.networks.any (fun e => e.1 = net)
  · simp only [h, if_true]
    have hs := mapGet_isSome fr.networks net
    rw [h] at hs
    rcases ho : mapGet fr.networks net with _ | nq
    · rw [ho] at hs
      simp at hs
    · simp [mapGet_map_update, ho]
  · simp only [h, if_false]
    have hs := mapGet_isSome fr.networks net
    rw [eq_false_of_ne_true h] at hs
    rcases ho : mapGet fr.networks net with _ | nq
    · simp [mapGet_append, ho, mapGet_cons]
    · rw [ho] at hs
      simp at hs

/-- `updateNetwork` does not touch the dedup set. -/
theorem updateNetwork_seen (fr : Frontier) (net : String)
    (f : NetworkQueue → NetworkQueue) :
    (updateNetwork fr net f).seen_urls = fr.seen_urls := by
  unfold updateNetwork
  by_cases h : fr.networks.any (fun e => e.1 = net) <;> simp [h]

/-- `HashMap::insert` then `get` at the same key. -/
theorem mapGet_mapInsert_self {α : Type} (m : List (String × α)) (k : String)
    (v : α) : mapGet (mapInsert m k v) k = some v := by
  unfold mapInsert
  by_cases h : m.any (fun e => e.1 = k)
  · simp only [h, if_true]
    have hs := mapGet_isSome m k
    rw [h] at hs
    rcases ho : mapGet m k with _ | w
    · rw [ho] at hs
      simp at hs
    · have := mapGet_map_update m k (fun _ => v)
      rw [ho] at this
      simp at this
      exact this
  · simp only [h, if_false]
    have hs := mapGet_isSome m k
    rw [eq_false_of_ne_true h] at hs
    rcases ho : mapGet m k with _ | w
    · simp [mapGet_append, ho, mapGet_cons]
    · rw [ho] at hs
      simp at hs

/-- The job stored after a `Frontier.push` that enqueued. -/
theorem lookupJob_after_push (fr : Frontier) (net normalized : String)
    (job : CrawlJob) :
    (updateNetwork fr net (fun nq => nq.push normalized job)).lookupJob
      net normalized = some job := by
  unfold Frontier.lookupJob
  rw [mapGet_updateNetwork]
  simp [NetworkQueue.push, mapGet_mapInsert_self]

/-- C2 (functional correctness): `push` semantics.  For a job with
`retry_count = 0`, `push` returns `true` and stores the job iff the
job's normalized URL was not already in `seen_urls` (in which case the
normalized URL is appended to the seen set); when the normalized URL
was already seen it returns `false` with the frontier unchanged.  For
a retry (`retry_count > 0`) it returns `true` and stores the job
without touching `seen_urls`.  Concretely, pushing
`http://X.ONION/a#f` and then `http://x.onion/a/` into a fresh
frontier returns `true` then `false` with the Tor queue of size 1
after each push. -/
theorem C2_push_dedup_semantics :
    (∀ (fr : Frontier) (job : CrawlJob),
      (job.retry_count = 0 →
        ((fr.push job).1 = true ↔ normalize_url job.url ∉ fr.seen_urls) ∧
        (normalize_url job.url ∈ fr.seen_urls → fr.push job = (false, fr)) ∧
        (normalize_url job.url ∉ fr.seen_urls →
          (fr.push job).1 = true ∧
          (fr.push job).2.lookupJob job.network (normalize_url job.url)
            = some job ∧
          (fr.push job).2.seen_urls
            = fr.seen_urls ++ [normalize_url job.url])) ∧
      (0 < job.retry_count →
        (fr.push job).1 = true ∧
        (fr.push job).2.lookupJob job.network (normalize_url job.url)
          = some job ∧
        (fr.push job).2.seen_urls = fr.seen_urls)) ∧
    (Frontier.new.push jobXaFrag).1 = true ∧
    (Frontier.new.push jobXaFrag).2.network_len "tor" = 1 ∧
    ((Frontier.new.push jobXaFrag).2.push jobXaSlash).1 = false ∧
    ((Frontier.new.push jobXaFrag).2.push jobXaSlash).2.network_len "tor"
      = 1 := by
  refine ⟨fun fr job => ⟨fun h0 => ?_, fun hr => ?_⟩, ?_, ?_, ?_, ?_⟩
  · by_cases hseen : normalize_url job.url ∈ fr.seen_urls
    · simp [Frontier.push, setInsert, h0, hseen]
    · simp [Frontier.push, setInsert, h0, hseen, lookupJob_after_push,
        updateNetwork_seen]
  · have hnr : ¬ job.retry_count = 0 := by omega
    simp [Frontier.push, setInsert, hr, hnr, lookupJob_after_push,
      updateNetwork_seen]
  · decide
  · decide
  · decide
  · decide

/-- Witness for `C2_push_dedup_semantics`: the universally quantified part
applied at the scenario's second push, whose normalized URL is already
seen. -/
theorem C2_push_dedup_semantics_witness :
    jobXaSlash.retry_count = 0 ∧
    normalize_url jobXaSlash.url ∈ (Frontier.new.push jobXaFrag).2.seen_urls ∧
    (Frontier.new.push jobXaFrag).2.push jobXaSlash
      = (false, (Frontier.new.push jobXaFrag).2) :=
  ⟨rfl, by decide,
   (((C2_push_dedup_semantics.1 (Frontier.new.push jobXaFrag).2
       jobXaSlash).1 rfl).2.1 (by decide))⟩

/-- A freshly inserted element is in the set. -/
theorem mem_setInsert_self (s : List String) (x : String) :
    x ∈ (setInsert s x).2 := by
  unfold setInsert
  by_cases h : x ∈ s <;> simp [h]

/-- Four consecutive fetch failures of `http://x.onion/p` under the Tor
driver, stepped explicitly. -/
theorem simRun_tor_four_failures (p : ℚ) :
    simFailN torDriver "tor" (.Network "tor circuit failed") 4
        ⟨(Frontier.new.push (jobXp p)).2, [], [], []⟩
      = { fr := torDrainedState
          dead := ["http://x.onion/p"]
          recs := [{ url := "http://x.onion/p", network := "tor"
                     domain := "x.onion", retry_count := 3
                     last_error := "network error: tor circuit failed"
                     failure_type := "unreachable" }]
          popped := [p, p * (1 / 2), p * (1 / 2) * (1 / 2),
                     p * (1 / 2) * (1 / 2) * (1 / 2)] } := by
  have e0 : (Frontier.new.push (jobXp p)).2 = torOnlyJobState p 0 := rfl
  have e1 : simFailStep torDriver "tor" (.Network "tor circuit failed")
      ⟨torOnlyJobState p 0, [], [], []⟩
      = ⟨torOnlyJobState (p * (1 / 2)) 1, [], [], [p]⟩ := rfl
  have e2 : simFailStep torDriver "tor" (.Network "tor circuit failed")
      ⟨torOnlyJobState (p * (1 / 2)) 1, [], [], [p]⟩
      = ⟨torOnlyJobState (p * (1 / 2) * (1 / 2)) 2, [], [],
         [p, p * (1 / 2)]⟩ := rfl
  have e3 : simFailStep torDriver "tor" (.Network "tor circuit failed")
      ⟨torOnlyJobState (p * (1 / 2) * (1 / 2)) 2, [], [],
       [p, p * (1 / 2)]⟩
      = ⟨torOnlyJobState (p * (1 / 2) * (1 / 2) * (1 / 2)) 3, [], [],
         [p, p * (1 / 2), p * (1 / 2) * (1 / 2)]⟩ := rfl
  have e4 : simFailStep torDriver "tor" (.Network "tor circuit failed")
      ⟨torOnlyJobState (p * (1 / 2) * (1 / 2) * (1 / 2)) 3, [], [],
       [p, p * (1 / 2), p * (1 / 2) * (1 / 2)]⟩
      = { fr := torDrainedState
          dead := ["http://x.onion/p"]
          recs := [{ url := "http://x.onion/p", network := "tor"
                     domain := "x.onion", retry_count := 3
                     last_error := "network error: tor circuit failed"
                     failure_type := "unreachable" }]
          popped := [p, p * (1 / 2), p * (1 / 2) * (1 / 2),
                     p * (1 / 2) * (1 / 2) * (1 / 2)] } := rfl
  rw [e0]
  show simFailN torDriver "tor" (.Network "tor circuit failed") 4
      ⟨torOnlyJobState p 0, [], [], []⟩ = _
  simp only [simFailN]
  rw [e1, e2, e3, e4]

/-- C1 (error handling): the fetch-error branch.  For every popped job
whose fetch fails: below the driver's retry budget the worker
re-enqueues a job for the same URL with `retry_count + 1` and half the
priority, leaving the dead set untouched and persisting nothing; at or
above the budget it inserts the URL into the in-memory dead set and
emits the `mark_dead` row whose `failure_type` is `classify_error` of
the error message.  For Tor (`max_retries = 3`), a URL failing on
every attempt is popped at priorities p, p/2, p/4, p/8 — i.e. re-queued
at p·0.5, p·0.25, p·0.125 — and dead-listed on the 4th failure. -/
theorem C1_retry_budget_and_death :
    (∀ (driver : Driver) (fr : Frontier) (dead : List String)
       (job : CrawlJob) (e : CrawlError),
      (job.retry_count < driver.max_retries →
        (handleFetchError driver fr dead job e).2.1 = dead ∧
        (handleFetchError driver fr dead job e).2.2 = none ∧
        (handleFetchError driver fr dead job e).1.lookupJob job.network
            (normalize_url job.url)
          = some { job with retry_count := job.retry_count + 1
                            priority := job.priority * (1 / 2) }) ∧
      (driver.max_retries ≤ job.retry_count →
        handleFetchError driver fr dead job e =
          (fr, (setInsert dead job.url.to_string).2,
           some { url := job.url.to_string, network := job.network
                  domain := job.url.host_str.getD "unknown"
                  retry_count := job.retry_count, last_error := e.toMessage
                  failure_type := driver.classify_error e.toMessage }) ∧
        job.url.to_string ∈ (handleFetchError driver fr dead job e).2.1)) ∧
    torDriver.max_retries = 3 ∧
    (∀ p : ℚ,
      (simFailN torDriver "tor" (.Network "tor circuit failed") 4
          ⟨(Frontier.new.push (jobXp p)).2, [], [], []⟩).popped
        = [p, p * (1 / 2), p * (1 / 4), p * (1 / 8)] ∧
      (simFailN torDriver "tor" (.Network "tor circuit failed") 4
          ⟨(Frontier.new.push (jobXp p)).2, [], [], []⟩).recs
        = [{ url := "http://x.onion/p", network := "tor"
             domain := "x.onion", retry_count := 3
             last_error := "network error: tor circuit failed"
             failure_type := "unreachable" }] ∧
      (simFailN torDriver "tor" (.Network "tor circuit failed") 4
          ⟨(Frontier.new.push (jobXp p)).2, [], [], []⟩).dead
        = ["http://x.onion/p"]) := by
  refine ⟨fun driver fr dead job e => ⟨fun h => ?_, fun h => ?_⟩, rfl,
    fun p => ⟨?_, ?_, ?_⟩⟩
  · have hr : 0 < job.retry_count + 1 := Nat.succ_pos _
    refine ⟨?_, ?_, ?_⟩
    · simp only [handleFetchError, if_pos h]
    · simp only [handleFetchError, if_pos h]
    · simp only [handleFetchError, if_pos h]
      simp [Frontier.push, hr, lookupJob_after_push]
  · have hn : ¬ job.retry_count < driver.max_retries := by omega
    refine ⟨?_, ?_⟩
    · simp only [handleFetchError, if_neg hn]
    · simp only [handleFetchError, if_neg hn]
      exact mem_setInsert_self _ _
  · rw [simRun_tor_four_failures p]
    rw [show p * (1 / 2) * (1 / 2) = p * (1 / 4) from by ring]
    rw [show p * (1 / 4) * (1 / 2) = p * (1 / 8) from by ring]
  · rw [simRun_tor_four_failures p]
  · rw [simRun_tor_four_failures p]

/-- Witness for `C1_retry_budget_and_death`: both branches at concrete
inputs — a first failure of `http://x.onion/p` under Tor is re-queued
at half priority, and a fourth (`retry_count = 3`) failure is
dead-listed. -/
theorem C1_retry_budget_and_death_witness :
    ((jobXp 1).retry_count < torDriver.max_retries ∧
      (handleFetchError torDriver (Frontier.new.push (jobXp 1)).2 []
          (jobXp 1) (.Network "tor circuit failed")).2.2 = none) ∧
    (torDriver.max_retries ≤ ({ jobXp 1 with retry_count := 3 } :
        CrawlJob).retry_count ∧
      "http://x.onion/p" ∈ (handleFetchError torDriver Frontier.new []
          { jobXp 1 with retry_count := 3 }
          (.Network "tor circuit failed")).2.1) := by
  constructor
  · refine ⟨by decide, ?_⟩
    exact ((C1_retry_budget_and_death.1 torDriver
      (Frontier.new.push (jobXp 1)).2 [] (jobXp 1)
      (.Network "tor circuit failed")).1 (by decide)).2.1
  · refine ⟨by decide, ?_⟩
    have h := ((C1_retry_budget_and_death.1 torDriver Frontier.new []
      { jobXp 1 with retry_count := 3 }
      (.Network "tor circuit failed")).2 (by decide)).2
    exact h

/-- The retry branch of the fetch-error arm (`crawl.rs:592-600`). -/
theorem handleFetchError_retry (driver : Driver) (fr : Frontier)
    (dead : List String) (job : CrawlJob) (e : CrawlError)
    (h : job.retry_count < driver.max_retries) :
    handleFetchError driver fr dead job e =
      ((fr.push { job with retry_count := job.retry_count + 1
                           priority := job.priority * (1 / 2) }).2,
       dead, none) := by
  simp only [handleFetchError, if_pos h]

/-- The dead branch of the fetch-error arm (`crawl.rs:601-619`). -/
theorem handleFetchError_dead (driver : Driver) (fr : Frontier)
    (dead : List String) (job : CrawlJob) (e : CrawlError)
    (h : ¬ job.retry_count < driver.max_retries) :
    handleFetchError driver fr dead job e =
      (fr, (setInsert dead job.url.to_string).2,
       some { url := job.url.to_string, network := job.network
              domain := job.url.host_str.getD "unknown"
              retry_count := job.retry_count, last_error := e.toMessage
              failure_type := driver.classify_error e.toMessage }) := by
  simp only [handleFetchError, if_neg h]

/-- A push of a retry job always enqueues. -/
theorem push_retry_state (fr : Frontier) (job : CrawlJob)
    (h : 0 < job.retry_count) :
    fr.push job =
      (true, updateNetwork fr job.network
        (fun nq => nq.push (normalize_url job.url) job)) := by
  simp [Frontier.push, h]

/-- C4 (corrected): the driver-side half holds — a fully read body
larger than `FetchConfig.max_body_size` makes the Hyphanet fetch
return `Err(BodyTooLarge{size, max})` — but the orchestrator does
*not* treat `BodyTooLarge` as terminal: the fetch-error branch never
inspects the error kind, so a `BodyTooLarge` failure below the retry
budget is re-queued with `retry_count + 1` and half priority exactly
like any other error, and is dead-listed only at or above the
budget. -/
theorem C4_body_too_large_not_terminal :
    (∀ (url : Url) (max_body_size status : Nat) (ct : Option String)
       (body : List Nat) (domain : String),
      body.length > max_body_size →
      hyphanetFetchTail url max_body_size status ct body domain
        = .error (.BodyTooLarge body.length max_body_size)) ∧
    (∀ (driver : Driver) (fr : Frontier) (dead : List String)
       (job : CrawlJob) (size max_bytes : Nat),
      job.retry_count < driver.max_retries →
        handleFetchError driver fr dead job (.BodyTooLarge size max_bytes)
          = ((fr.push { job with retry_count := job.retry_count + 1
                                 priority := job.priority * (1 / 2) }).2,
             dead, none)) ∧
    (∀ (driver : Driver) (fr : Frontier) (dead : List String)
       (job : CrawlJob) (size max_bytes : Nat),
      driver.max_retries ≤ job.retry_count →
        (handleFetchError driver fr dead job
            (.BodyTooLarge size max_bytes)).1 = fr ∧
        (handleFetchError driver fr dead job
            (.BodyTooLarge size max_bytes)).2.1
          = (setInsert dead job.url.to_string).2 ∧
        (handleFetchError driver fr dead job
            (.BodyTooLarge size max_bytes)).2.2
          = some { url := job.url.to_string, network := job.network
                   domain := job.url.host_str.getD "unknown"
                   retry_count := job.retry_count
                   last_error :=
                     (CrawlError.BodyTooLarge size max_bytes).toMessage
                   failure_type := driver.classify_error
                     (CrawlError.BodyTooLarge size max_bytes).toMessage }) := by
  refine ⟨fun url mbs status ct body domain h => ?_,
    fun driver fr dead job size mb h => handleFetchError_retry _ _ _ _ _ h,
    fun driver fr dead job size mb h => ?_⟩
  · simp only [hyphanetFetchTail, if_pos h]
  · rw [handleFetchError_dead _ _ _ _ _ (by omega)]
    exact ⟨rfl, rfl, rfl⟩

/-- Witness for `C4_body_too_large_not_terminal` at concrete inputs: a
101-byte body against a 100-byte cap, and a first-attempt
`BodyTooLarge` failure of a Hyphanet job. -/
theorem C4_body_too_large_not_terminal_witness :
    ((List.replicate 101 97).length > 100 ∧
      hyphanetFetchTail uskUrl 100 200 (some "text/html")
          (List.replicate 101 97) "site"
        = .error (.BodyTooLarge (List.replicate 101 97).length 100)) ∧
    (jobUsk.retry_count < hyphanetDriver.max_retries ∧
      handleFetchError hyphanetDriver Frontier.new [] jobUsk
          (.BodyTooLarge 200 100)
        = ((Frontier.new.push { jobUsk with
              retry_count := jobUsk.retry_count + 1
              priority := jobUsk.priority * (1 / 2) }).2, [], none)) ∧
    (hyphanetDriver.max_retries ≤ jobUsk12.retry_count ∧
      (handleFetchError hyphanetDriver Frontier.new [] jobUsk12
          (.BodyTooLarge 200 100)).2.1 = ["hyphanet:USK@K/site/5/"]) := by
  refine ⟨⟨by decide, ?_⟩, ⟨by decide, ?_⟩, ⟨by decide, ?_⟩⟩
  · exact C4_body_too_large_not_terminal.1 uskUrl 100 200 (some "text/html")
      (List.replicate 101 97) "site" (by decide)
  · exact C4_body_too_large_not_terminal.2.1 hyphanetDriver Frontier.new []
      jobUsk 200 100 (by decide)
  · rw [(C4_body_too_large_not_terminal.2.2 hyphanetDriver Frontier.new []
      jobUsk12 200 100 (by decide)).2.1]
    rfl

/-- C4 counterexample: the claim as stated — "`BodyTooLarge` is
dead-listed rather than re-queued regardless of the remaining retry
budget" — is false on the code: a `BodyTooLarge` failure of a fresh
Hyphanet job (retry budget 12 remaining) is re-queued at half priority
and nothing is dead-listed or persisted. -/
theorem C4_body_too_large_retried_counterexample :
    hyphanetDriver.max_retries = 12 ∧
    (handleFetchError hyphanetDriver Frontier.new [] jobUsk
        (.BodyTooLarge 20971520 10485760)).2.1 = [] ∧
    (handleFetchError hyphanetDriver Frontier.new [] jobUsk
        (.BodyTooLarge 20971520 10485760)).2.2 = none ∧
    (handleFetchError hyphanetDriver Frontier.new [] jobUsk
        (.BodyTooLarge 20971520 10485760)).1.lookupJob "hyphanet"
        (normalize_url uskUrl)
      = some { url := uskUrl, depth := 0, source_url := none
               network := "hyphanet", priority := (1 : ℚ) * (1 / 2)
               retry_count := 1 } := by
  refine ⟨rfl, ?_, ?_, ?_⟩
  · rw [handleFetchError_retry _ _ _ _ _ (by decide)]
  · rw [handleFetchError_retry _ _ _ _ _ (by decide)]
  · rw [handleFetchError_retry _ _ _ _ _ (by decide)]
    rw [push_retry_state _ _ (by decide)]
    exact lookupJob_after_push Frontier.new "hyphanet" (normalize_url uskUrl)
      { url := uskUrl, depth := 0, source_url := none, network := "hyphanet"
        priority := (1 : ℚ) * (1 / 2), retry_count := 1 }

/-- C5 (corrected): `make_crawl_job` does return `None` for every
http(s) URL whose host ends in `.onion` but is not a valid v3 onion
address, so such URLs discovered during crawling are never enqueued —
but the spec's claim that such *seeds* are "rejected at
frontier-enqueue time" is false: seeds flow through
`CrawlFrontier::add_seeds` (`crawl.rs:157-174`, frontier
`lib.rs:355-386`), which never consults `is_v3_onion` and enqueues any
parseable URL. -/
theorem C5_invalid_onion_never_from_make_crawl_job :
    ∀ (parse : String → Option Url) (drivers : List Driver)
      (url_str : String) (depth : Nat) (src u : Url) (h : String),
      parse url_str = some u →
      u.host = some h →
      strEndsWith h ".onion" = true →
      is_v3_onion h = false →
      u.scheme = "http" ∨ u.scheme = "https" →
      make_crawl_job parse url_str depth src drivers = none := by
  intro parse drivers url_str depth src u host hp hh hend hv3 hscheme
  simp only [make_crawl_job, hp]
  have hs1 : ¬ (u.scheme ≠ "http" ∧ u.scheme ≠ "https" ∧
      u.scheme ≠ "hyphanet" ∧ u.scheme ≠ "freenet") := by
    rcases hscheme with h | h <;> simp [h]
  rw [if_neg hs1]
  by_cases hd : drivers.any (fun d => d.can_handle u)
  · rw [if_neg (by simp [hd])]
    have hnh : ¬ (u.scheme = "hyphanet" ∨ u.scheme = "freenet") := by
      rcases hscheme with h | h <;> simp [h]
    rw [if_neg hnh]
    have hhost : u.host_str.getD "" = host := by
      simp [Url.host_str, hh]
    rw [hhost, if_pos hend]
    rw [if_pos (by simp [hv3])]
  · rw [if_pos (by simpa using hd)]

/-- Witness for `C5_invalid_onion_never_from_make_crawl_job`: the
scenario seed `http://shortname.onion/` against the Tor driver. -/
theorem C5_invalid_onion_never_from_make_crawl_job_witness :
    urlParseTable "http://shortname.onion/" = some shortOnionUrl ∧
    shortOnionUrl.host = some "shortname.onion" ∧
    strEndsWith "shortname.onion" ".onion" = true ∧
    is_v3_onion "shortname.onion" = false ∧
    shortOnionUrl.scheme = "http" ∧
    make_crawl_job urlParseTable "http://shortname.onion/" 0 urlXp
      [torDriver] = none := by
  refine ⟨by decide, rfl, by decide, by decide, rfl, ?_⟩
  exact C5_invalid_onion_never_from_make_crawl_job urlParseTable [torDriver]
    "http://shortname.onion/" 0 urlXp shortOnionUrl "shortname.onion"
    (by decide) rfl (by decide) (by decide) (Or.inl rfl)

/-- C5 counterexample: the invalid v3 onion seed `http://shortname.onion/`
is *not* rejected at frontier-enqueue time — `add_seeds` reports one
seed added, the Tor queue holds one job for it, and the job is stored
under its normalized URL. -/
theorem C5_invalid_seed_enqueued_counterexample :
    is_v3_onion "shortname.onion" = false ∧
    (Frontier.new.add_seeds urlParseTable ["http://shortname.onion/"]
        "tor").1 = 1 ∧
    (Frontier.new.add_seeds urlParseTable ["http://shortname.onion/"]
        "tor").2.network_len "tor" = 1 ∧
    ((Frontier.new.add_seeds urlParseTable ["http://shortname.onion/"]
        "tor").2.lookupJob "tor"
        (normalize_url shortOnionUrl)).isSome = true ∧
    "http://shortname.onion/" ∈
      (Frontier.new.add_seeds urlParseTable ["http://shortname.onion/"]
        "tor").2.seen_urls := by
  exact ⟨by decide, rfl, rfl, rfl, by decide⟩

/-- Characters of a prefix are characters of the string. -/
theorem get?_of_strStartsWith (s p : String) (i : Nat)
    (hp : strStartsWith s p = true) (hi : i < p.toList.length) :
    s.toList.get? i = p.toList.get? i := by
  obtain ⟨t, ht⟩ := List.isPrefixOf_iff_prefix.mp hp
  rw [← ht, List.get?_eq_getElem?, List.get?_eq_getElem?]
  exact List.getElem?_append_left hi

/-- Two would-be prefixes of one string cannot disagree at a
position. -/
theorem startsWith_conflict (s p q : String) (i : Nat) (c d : Char)
    (hp : strStartsWith s p = true) (hpc : p.toList.get? i = some c)
    (hqd : q.toList.get? i = some d) (hne : c ≠ d) :
    strStartsWith s q = false := by
  by_contra hq
  rw [Bool.not_eq_false] at hq
  have hip : i < p.toList.length := by
    by_contra hh
    rw [List.get?_eq_none.mpr (by omega)] at hpc
    exact Option.noConfusion hpc
  have hiq : i < q.toList.length := by
    by_contra hh
    rw [List.get?_eq_none.mpr (by omega)] at hqd
    exact Option.noConfusion hqd
  have h1 := get?_of_strStartsWith s p i hp hip
  have h2 := get?_of_strStartsWith s q i hq hiq
  rw [hpc] at h1
  rw [hqd] at h2
  rw [h1] at h2
  exact hne (Option.some.injEq _ _ ▸ h2.symm ▸ rfl)

/-- C7 (error handling): a 200-status Hyphanet response whose body is
within the size cap, decodes as UTF-8, and whose first
`<title>…</title>` text contains one of the known FProxy error phrases
is converted to `CrawlError::Network("FProxy error page: <title>")`;
and the Hyphanet `classify_error` maps
`"FProxy error page: Data not found"` to `"unreachable"`. -/
theorem C7_fproxy_error_page_detection :
    (∀ (url : Url) (max_body_size : Nat) (ct : Option String)
       (body : List Nat) (domain : String) (text title : List Char)
       (phrase : String),
      body.length ≤ max_body_size →
      utf8DecodeStrict body = some text →
      extractTitle text = some title →
      (phrase = "not found" ∨ phrase = "Invalid Key" ∨
       phrase = "Set Up Freenet" ∨ phrase = "Route not found" ∨
       phrase = "Data not found" ∨ phrase = "Permanent Redirect") →
      strContainsSub (String.mk title) phrase = true →
      hyphanetFetchTail url max_body_size 200 ct body domain
        = .error (.Network ("FProxy error page: " ++ String.mk title))) ∧
    hyphanetDriver.classify_error "FProxy error page: Data not found"
      = "unreachable" := by
  refine ⟨fun url mbs ct body domain text title phrase hlen hdec hext hph hc
    => ?_, by decide⟩
  have hneg : ¬ body.length > mbs := by omega
  have herr : isFproxyErrorTitle (String.mk title) = true := by
    unfold isFproxyErrorTitle
    rcases hph with h | h | h | h | h | h <;> subst h <;> simp [hc]
  simp only [hyphanetFetchTail, if_neg hneg, hdec, hext, herr, if_true]

/-- Witness for `C7_fproxy_error_page_detection`: the scenario response
`<html><title>Data not found</title></html>` with status 200. -/
theorem C7_fproxy_error_page_detection_witness :
    fproxyBody.length ≤ 10485760 ∧
    utf8DecodeStrict fproxyBody
      = some "<html><title>Data not found</title></html>".toList ∧
    extractTitle "<html><title>Data not found</title></html>".toList
      = some "Data not found".toList ∧
    strContainsSub (String.mk "Data not found".toList) "Data not found"
      = true ∧
    hyphanetFetchTail uskUrl 10485760 200 (some "text/html") fproxyBody
        "site"
      = .error (.Network "FProxy error page: Data not found") := by
  refine ⟨by decide, by decide, by decide, by decide, ?_⟩
  exact C7_fproxy_error_page_detection.1 uskUrl 10485760 (some "text/html")
    fproxyBody "site" "<html><title>Data not found</title></html>".toList
    "Data not found".toList "Data not found" (by decide) (by decide)
    (by decide) (by simp) (by decide)

/-- C8 (functional correctness): for `<a href>` parsed against a
`hyphanet:`/`freenet:` base, an href beginning with `/USK@`, `/SSK@`,
`/CHK@`, `/hyphanet:` or `/freenet:` is emitted directly as
`hyphanet:<key>` — the href minus its leading slash and any
`hyphanet:`/`freenet:` prefix — with `is_hyphanet = true` and
`is_external = true`.  Concretely, base `hyphanet:USK@K/site/5/` with
href `/USK@K/site/5/page.html` yields
`hyphanet:USK@K/site/5/page.html`. -/
theorem C8_hyphanet_href_rewrite :
    (∀ (join : Url → String → Option Url) (base_url : Url)
       (base_domain href : String) (anchor : Option String),
      (base_url.scheme = "hyphanet" ∨ base_url.scheme = "freenet") →
      ((strStartsWith href "/USK@" = true ∨ strStartsWith href "/SSK@" = true ∨
        strStartsWith href "/CHK@" = true →
        extract_link join base_url base_domain href anchor
          = some { url := "hyphanet:" ++ strDrop href 1
                   anchor_text := anchor, is_onion := false, is_i2p := false
                   is_zeronet := false, is_hyphanet := true
                   is_lokinet := false, is_external := true }) ∧
       (strStartsWith href "/hyphanet:" = true →
        extract_link join base_url base_domain href anchor
          = some { url := "hyphanet:" ++ strDrop href "/hyphanet:".length
                   anchor_text := anchor, is_onion := false, is_i2p := false
                   is_zeronet := false, is_hyphanet := true
                   is_lokinet := false, is_external := true }) ∧
       (strStartsWith href "/freenet:" = true →
        extract_link join base_url base_domain href anchor
          = some { url := "hyphanet:" ++ strDrop href "/freenet:".length
                   anchor_text := anchor, is_onion := false, is_i2p := false
                   is_zeronet := false, is_hyphanet := true
                   is_lokinet := false, is_external := true }))) ∧
    extract_link (fun _ _ => none) uskUrl "" "/USK@K/site/5/page.html" none
      = some { url := "hyphanet:USK@K/site/5/page.html", anchor_text := none
               is_onion := false, is_i2p := false, is_zeronet := false
               is_hyphanet := true, is_lokinet := false
               is_external := true } := by
  have main : ∀ (join : Url → String → Option Url) (base_url : Url)
      (base_domain href : String) (anchor : Option String),
      (base_url.scheme = "hyphanet" ∨ base_url.scheme = "freenet") →
      (strStartsWith href "/USK@" = true ∨ strStartsWith href "/SSK@" = true ∨
       strStartsWith href "/CHK@" = true ∨
       strStartsWith href "/hyphanet:" = true ∨
       strStartsWith href "/freenet:" = true) →
      extract_link join base_url base_domain href anchor
        = some { url := "hyphanet:" ++
                   (if strStartsWith href "/freenet:" then
                      strDrop href "/freenet:".length
                    else if strStartsWith href "/hyphanet:" then
                      strDrop href "/hyphanet:".length
                    else strDrop href 1)
                 anchor_text := anchor, is_onion := false, is_i2p := false
                 is_zeronet := false, is_hyphanet := true
                 is_lokinet := false, is_external := true } := by
    intro join base_url base_domain href anchor hbase hstart
    have hslash : href.toList.get? 0 = some '/' := by
      have hp : ∀ (p : String), strStartsWith href p = true →
          p.toList.get? 0 = some '/' → href.toList.get? 0 = some '/' := by
        intro p h hc
        rw [get?_of_strStartsWith href p 0 h (by
          rcases hg : p.toList with _ | ⟨x, xs⟩
          · rw [hg] at hc
            exact Option.noConfusion hc
          · simp)]
        exact hc
      rcases hstart with h | h | h | h | h
      · exact hp "/USK@" h rfl
      · exact hp "/SSK@" h rfl
      · exact hp "/CHK@" h rfl
      · exact hp "/hyphanet:" h rfl
      · exact hp "/freenet:" h rfl
    have hjav : strStartsWith href "javascript:" = false := by
      by_contra hq
      rw [Bool.not_eq_false] at hq
      have := get?_of_strStartsWith href "javascript:" 0 hq (by decide)
      rw [hslash] at this
      simp at this
    have hmail : strStartsWith href "mailto:" = false := by
      by_contra hq
      rw [Bool.not_eq_false] at hq
      have := get?_of_strStartsWith href "mailto:" 0 hq (by decide)
      rw [hslash] at this
      simp at this
    have htel : strStartsWith href "tel:" = false := by
      by_contra hq
      rw [Bool.not_eq_false] at hq
      have := get?_of_strStartsWith href "tel:" 0 hq (by decide)
      rw [hslash] at this
      simp at this
    have hdata : strStartsWith href "data:" = false := by
      by_contra hq
      rw [Bool.not_eq_false] at hq
      have := get?_of_strStartsWith href "data:" 0 hq (by decide)
      rw [hslash] at this
      simp at this
    have hhash : strStartsWith href "#" = false := by
      by_contra hq
      rw [Bool.not_eq_false] at hq
      have := get?_of_strStartsWith href "#" 0 hq (by decide)
      rw [hslash] at this
      simp at this
    have hone : href ≠ "/" := by
      intro he
      subst he
      rcases hstart with h | h | h | h | h <;> exact absurd h (by decide)
    unfold extract_link
    rw [if_neg (by simp [hjav, hmail, htel, hdata, hhash, hone])]
    rw [if_pos (⟨hbase, by tauto⟩ :
      (base_url.scheme = "hyphanet" ∨ base_url.scheme = "freenet") ∧
      (strStartsWith href "/USK@" = true ∨ strStartsWith href "/SSK@" = true ∨
       strStartsWith href "/CHK@" = true ∨
       strStartsWith href "/freenet:" = true ∨
       strStartsWith href "/hyphanet:" = true))]
  refine ⟨fun join base_url base_domain href anchor hbase =>
    ⟨fun h5 => ?_, fun hh => ?_, fun hf => ?_⟩, ?_⟩
  · have hfree : strStartsWith href "/freenet:" = false := by
      rcases h5 with h | h | h
      · exact startsWith_conflict href "/USK@" "/freenet:" 1 'U' 'f' h rfl
          rfl (by decide)
      · exact startsWith_conflict href "/SSK@" "/freenet:" 1 'S' 'f' h rfl
          rfl (by decide)
      · exact startsWith_conflict href "/CHK@" "/freenet:" 1 'C' 'f' h rfl
          rfl (by decide)
    have hhyp : strStartsWith href "/hyphanet:" = false := by
      rcases h5 with h | h | h
      · exact startsWith_conflict href "/USK@" "/hyphanet:" 1 'U' 'h' h rfl
          rfl (by decide)
      · exact startsWith_conflict href "/SSK@" "/hyphanet:" 1 'S' 'h' h rfl
          rfl (by decide)
      · exact startsWith_conflict href "/CHK@" "/hyphanet:" 1 'C' 'h' h rfl
          rfl (by decide)
    rw [main join base_url base_domain href anchor hbase (by tauto)]
    simp [hfree, hhyp]
  · have hfree : strStartsWith href "/freenet:" = false :=
      startsWith_conflict href "/hyphanet:" "/freenet:" 1 'h' 'f' hh rfl
        rfl (by decide)
    rw [main join base_url base_domain href anchor hbase (by tauto)]
    simp [hfree, hh]
  · rw [main join base_url base_domain href anchor hbase (by tauto)]
    simp [hf]
  · decide

/-- `Char.ofNat` inverts `toNat` on ASCII code points. -/
theorem char_toNat_ofNat_ascii (b : Nat) (h : b < 128) :
    (Char.ofNat b).toNat = b := by
  have hv : b.isValidChar := Or.inl (by omega)
  simp [Char.ofNat, hv, Char.toNat, Char.ofNatAux, UInt32.toNat,
    BitVec.toNat_ofNatLt]

/-- On all-ASCII byte lists the lossy decoder is plain byte-to-char. -/
theorem utf8DecodeLossyFuel_ascii (fuel : Nat) :
    ∀ l : List Nat, (∀ b ∈ l, b < 128) → l.length ≤ fuel →
      utf8DecodeLossyFuel fuel l = l.map Char.ofNat := by
  induction fuel with
  | zero =>
    intro l hl hlen
    rcases l with _ | ⟨b, rest⟩
    · rfl
    · simp at hlen
  | succ n ih =>
    intro l hl hlen
    rcases l with _ | ⟨b, rest⟩
    · rfl
    · have hb : b < 128 := hl b (List.mem_cons_self _ _)
      have hrest : utf8DecodeLossyFuel n rest = rest.map Char.ofNat :=
        ih rest (fun x hx => hl x (List.mem_cons_of_mem _ hx))
          (by simp at hlen; omega)
      simp only [utf8DecodeLossyFuel, if_pos (show b < 0x80 by omega),
        hrest, List.map_cons]

/-- On all-ASCII byte lists, encoding the decoded string restores the
bytes. -/
theorem utf8Encode_ascii : ∀ l : List Nat, (∀ b ∈ l, b < 128) →
    utf8Encode (String.mk (l.map Char.ofNat)) = l := by
  intro l
  induction l with
  | nil => intro _; rfl
  | cons b rest ih =>
    intro h
    have hb : b < 128 := h b (List.mem_cons_self _ _)
    have hrest := ih (fun x hx => h x (List.mem_cons_of_mem _ hx))
    show ((( b :: rest).map Char.ofNat).map
      (fun c => utf8EncodeChar c.toNat)).flatten = b :: rest
    simp only [List.map_cons, List.flatten_cons]
    rw [char_toNat_ofNat_ascii b hb]
    rw [show utf8EncodeChar b = [b] from by
      simp only [utf8EncodeChar, if_pos (show b < 0x80 by omega)]]
    simpa [utf8Encode] using hrest

/-- C9 (corrected): `parse_response` truncates the body to 5 MB before
parsing and stores the lossy UTF-8 decoding of the truncated body as
`raw_html` — but `raw_html_hash` is the SHA-256 of the *full,
untruncated raw body bytes* (`hasher.update(&resp.body)`), not of the
`raw_html` string.  For bodies within the cap made of ASCII bytes the
two agree (decoding is lossless there, second conjunct); the
counterexample below separates them on a non-UTF-8 body. -/
theorem C9_raw_html_truncation_and_hash :
    (∀ resp : FetchResponse,
      (parse_response resp).raw_html
        = String.mk (utf8DecodeLossy
            (if resp.body.length > MAX_PARSE_SIZE then
              resp.body.take MAX_PARSE_SIZE
            else resp.body)) ∧
      (parse_response resp).raw_html_hash = sha256Hex resp.body) ∧
    (∀ resp : FetchResponse,
      resp.body.length ≤ MAX_PARSE_SIZE →
      (∀ b ∈ resp.body, b < 128) →
      sha256Hex (utf8Encode (parse_response resp).raw_html)
        = (parse_response resp).raw_html_hash) := by
  refine ⟨fun resp => ⟨rfl, rfl⟩, fun resp hlen hascii => ?_⟩
  have ht : ¬ resp.body.length > MAX_PARSE_SIZE := by omega
  have h1 : (parse_response resp).raw_html
      = String.mk (resp.body.map Char.ofNat) := by
    simp only [parse_response, if_neg ht, utf8DecodeLossy,
      utf8DecodeLossyFuel_ascii resp.body.length resp.body hascii le_rfl]
  rw [h1, utf8Encode_ascii resp.body hascii]
  rfl

/-- Witness for `C9_raw_html_truncation_and_hash`: the ASCII response
`respHi` (body `"hi"`), where the stored hash does equal the SHA-256 of
`raw_html`. -/
theorem C9_raw_html_truncation_and_hash_witness :
    respHi.body.length ≤ MAX_PARSE_SIZE ∧
    (∀ b ∈ respHi.body, b < 128) ∧
    sha256Hex (utf8Encode (parse_response respHi).raw_html)
      = (parse_response respHi).raw_html_hash :=
  ⟨by decide, by decide,
   C9_raw_html_truncation_and_hash.2 respHi (by decide) (by decide)⟩

/-- C9 counterexample: for the response `respFF`, whose 7-byte body
contains the invalid UTF-8 byte `0xFF`, the stored `raw_html_hash`
(SHA-256 of the raw bytes) differs from the SHA-256 of the `raw_html`
field's UTF-8 bytes: the lossy decode replaced `0xFF` with the
three-byte U+FFFD, so the claim's "the stored hash equals sha256 of
the raw_html field for every response, including responses … not valid
UTF-8" is false. -/
theorem C9_hash_not_of_raw_html_counterexample :
    (parse_response respFF).raw_html_hash
      ≠ sha256Hex (utf8Encode (parse_response respFF).raw_html) ∧
    (parse_response respFF).raw_html_hash = sha256Hex respFF.body ∧
    (parse_response respFF).raw_html
      = String.mk (utf8DecodeLossy respFF.body) ∧
    utf8DecodeStrict respFF.body = none := by
  refine ⟨?_, rfl, rfl, by decide⟩
  decide

/-- `pqPush` is the same list operation as `mapInsert`. -/
theorem pqPush_eq_mapInsert (q : PQ) (k : String) (p : ℚ) :
    pqPush q k p = mapInsert q k p := rfl

/-- Keys after `mapInsert`: unchanged when the key is present, appended
otherwise. -/
theorem keys_mapInsert {α : Type} (m : List (String × α)) (k : String)
    (v : α) :
    (mapInsert m k v).map Prod.fst =
      if m.any (fun e => e.1 = k) then m.map Prod.fst
      else m.map Prod.fst ++ [k] := by
  unfold mapInsert
  by_cases h : m.any (fun e => e.1 = k)
  · simp only [h, if_true, List.map_map]
    refine List.map_congr_left (fun e _ => ?_)
    by_cases he : e.1 = k <;> simp [he]
  · simp [h]

/-- Key presence as membership of the key list. -/
theorem any_keys {α : Type} (m : List (String × α)) (k : String) :
    m.any (fun e => e.1 = k) = true ↔ k ∈ m.map Prod.fst := by
  constructor
  · intro h
    obtain ⟨x, hx, he⟩ := List.any_eq_true.mp h
    exact List.mem_map.mpr ⟨x, hx, by simpa using he⟩
  · intro h
    obtain ⟨x, hx, he⟩ := List.mem_map.mp h
    exact List.any_eq_true.mpr ⟨x, hx, by simp [he]⟩

/-- Erasing by key commutes with taking keys. -/
theorem keys_eraseKey {α : Type} (l : List (String × α)) (k : String) :
    (l.eraseP (fun e => e.1 = k)).map Prod.fst
      = (l.map Prod.fst).erase k := by
  induction l with
  | nil => rfl
  | cons e t ih =>
    by_cases h : e.1 = k
    · simp [List.eraseP_cons, h, List.erase_cons_head]
    · simp only [List.eraseP_cons]
      rw [show (decide (e.1 = k)) = false by simp [h]]
      simp only [cond_false, List.map_cons, ih]
      rw [List.erase_cons_tail (by simp [h])]

/-- The empty queue satisfies the invariant. -/
theorem NQInv_new : NQInv NetworkQueue.new := by
  constructor <;> simp [NetworkQueue.new]

/-- `NetworkQueue::push` preserves the invariant. -/
theorem NQInv_push (nq : NetworkQueue) (k : String) (job : CrawlJob)
    (h : NQInv nq) : NQInv (nq.push k job) := by
  obtain ⟨hnd, hperm⟩ := h
  constructor <;>
    simp only [NetworkQueue.push, pqPush_eq_mapInsert, keys_mapInsert]
  · by_cases hq : nq.queue.any (fun e => e.1 = k)
    · simpa [hq] using hnd
    · have hk : k ∉ nq.queue.map Prod.fst := by
        rw [← any_keys]
        simp [hq]
      simp [hq, List.nodup_append, hnd, hk]
  · by_cases hq : nq.queue.any (fun e => e.1 = k)
    · have hj : nq.jobs.any (fun e => e.1 = k) = true := by
        rw [any_keys]
        exact hperm.mem_iff.mp ((any_keys _ _).mp hq)
      simpa [hq, hj] using hperm
    · have hj : ¬ nq.jobs.any (fun e => e.1 = k) = true := by
        rw [any_keys]
        intro hmem
        exact (by simpa [hq] using ((any_keys nq.queue k).mpr
          (hperm.mem_iff.mpr hmem)))
      simp only [hq, if_false, hj, if_neg hj]
      exact hperm.append_right [k]

/-- `NetworkQueue::pop` preserves the invariant. -/
theorem NQInv_pop (nq : NetworkQueue) (h : NQInv nq) :
    NQInv (nq.pop).2 := by
  obtain ⟨hnd, hperm⟩ := h
  unfold NetworkQueue.pop
  rcases hp : pqPop nq.queue with _ | ⟨e, q2⟩
  · exact ⟨hnd, hperm⟩
  · have hq2 : q2 = nq.queue.eraseP (fun x => x.1 = e.1) := by
      unfold pqPop at hp
      rcases hm : pqFindMax nq.queue with _ | m
      · rw [hm] at hp
        exact Option.noConfusion hp
      · rw [hm] at hp
        injection hp with hp1
        injection hp1 with he hq
        rw [← hq, ← he]
    subst hq2
    refine ⟨?_, ?_⟩
    · simp only [keys_eraseKey]
      exact hnd.sublist (List.erase_sublist _ _)
    · simp only [mapRemove, keys_eraseKey]
      exact hperm.erase e.1

/-- Under the invariant the queue and the job store have equal size. -/
theorem NQInv_len (nq : NetworkQueue) (h : NQInv nq) :
    nq.queue.length = nq.jobs.length := by
  have := h.2.length_eq
  simpa using this

/-- `updateNetwork` preserves the frontier invariant whenever the queue
transformer preserves `NQInv` (also from the empty queue it may
create). -/
theorem FrInv_updateNetwork (fr : Frontier) (net : String)
    (f : NetworkQueue → NetworkQueue)
    (hf : ∀ nq, NQInv nq → NQInv (f nq)) (h : FrInv fr) :
    FrInv (updateNetwork fr net f) := by
  unfold updateNetwork
  by_cases hc : fr.networks.any (fun e => e.1 = net)
  · simp only [hc, if_true]
    intro p hp
    obtain ⟨e, he, hpe⟩ := List.mem_map.mp hp
    by_cases hek : e.1 = net
    · rw [← hpe]
      simp only [hek, if_pos]
      exact hf e.2 (h e he)
    · rw [← hpe]
      simp only [hek, if_neg, if_false]
      exact h e he
  · simp only [hc, if_false]
    intro p hp
    rcases List.mem_append.mp hp with hmem | hmem
    · exact h p hmem
    · rcases List.mem_singleton.mp hmem with rfl
      exact hf NetworkQueue.new NQInv_new

/-- Replacing `seen_urls` does not affect the queue invariant. -/
theorem FrInv_seen (fr : Frontier) (s : List String) (h : FrInv fr) :
    FrInv { fr with seen_urls := s } := h

/-- `Frontier.push` preserves the invariant. -/
theorem FrInv_push (fr : Frontier) (job : CrawlJob) (h : FrInv fr) :
    FrInv (fr.push job).2 := by
  unfold Frontier.push
  by_cases hr : 0 < job.retry_count
  · simp only [hr]
    rw [if_neg (by simp [hr])]
    simp only [if_pos hr]
    exact FrInv_updateNetwork _ _ _ (fun nq => NQInv_push nq _ _) h
  · simp only [hr]
    by_cases hi : (setInsert fr.seen_urls (normalize_url job.url)).1 = false
    · rw [if_pos (by simp [hr, hi])]
      exact h
    · rw [if_neg (by simp [hr, hi])]
      simp only [if_neg hr]
      exact FrInv_updateNetwork _ _ _ (fun nq => NQInv_push nq _ _)
        (FrInv_seen _ _ h)

/-- The enqueue fold of `push_batch` preserves the invariant. -/
theorem FrInv_push_batch_fold (jobs : List CrawlJob) :
    ∀ (acc : Nat × Frontier), FrInv acc.2 →
      FrInv (jobs.foldl
        (fun (acc : Nat × Frontier) job =>
          (acc.1 + 1,
           updateNetwork acc.2 job.network
             (fun nq => nq.push (normalize_url job.url) job)))
        acc).2 := by
  induction jobs with
  | nil => exact fun acc h => h
  | cons j t ih =>
    intro acc h
    exact ih _ (FrInv_updateNetwork _ _ _ (fun nq => NQInv_push nq _ _) h)

/-- `Frontier.push_batch` preserves the invariant. -/
theorem FrInv_push_batch (fr : Frontier) (jobs : List CrawlJob)
    (h : FrInv fr) : FrInv (fr.push_batch jobs).2 := by
  unfold Frontier.push_batch
  exact FrInv_push_batch_fold _ _ (FrInv_seen _ _ h)

/-- `Frontier.push_back` preserves the invariant. -/
theorem FrInv_push_back (fr : Frontier) (net : String)
    (jobs : List CrawlJob) (h : FrInv fr) :
    FrInv (fr.push_back net jobs) := by
  unfold Frontier.push_back
  refine FrInv_updateNetwork _ _ _ (fun nq hq => ?_) h
  clear h
  induction jobs generalizing nq with
  | nil => exact hq
  | cons j t ih => exact ih _ (NQInv_push nq _ _ hq)

/-- `Frontier.add_seeds` preserves the invariant. -/
theorem FrInv_add_seeds (fr : Frontier) (parse : String → Option Url)
    (urls : List String) (net : String) (h : FrInv fr) :
    FrInv (fr.add_seeds parse urls net).2 := by
  have hgen : ∀ (l : List String) (acc : Nat × Frontier), FrInv acc.2 →
      FrInv (l.foldl
        (fun (acc : Nat × Frontier) url_str =>
          match parse url_str with
          | none => acc
          | some url =>
            let normalized := normalize_url url
            let priority := calculate_priority url 0
            let job : CrawlJob :=
              { url := url, depth := 0, source_url := none, network := net
                priority := priority, retry_count := 0 }
            let fr := acc.2
            let fr := { fr with
              seen_urls := (setInsert fr.seen_urls normalized).2 }
            (acc.1 + 1,
             updateNetwork fr net (fun nq => nq.push normalized job)))
        acc).2 := by
    intro l
    induction l with
    | nil => exact fun acc hacc => hacc
    | cons u t ih =>
      intro acc hacc
      simp only [List.foldl_cons]
      rcases parse u with _ | url
      · exact ih acc hacc
      · exact ih _ (FrInv_updateNetwork _ _ _ (fun nq => NQInv_push nq _ _)
          (FrInv_seen _ _ hacc))
  exact hgen urls (0, fr) h

/-- `Frontier.pop_for_network` preserves the invariant. -/
theorem FrInv_pop_for_network (fr : Frontier) (net : String)
    (h : FrInv fr) : FrInv (fr.pop_for_network net).2 := by
  unfold Frontier.pop_for_network
  rcases hm : mapGet fr.networks net with _ | nq
  · exact h
  · have hnq : NQInv nq := by
      unfold mapGet at hm
      rcases hf : fr.networks.find? (fun e => e.1 = net) with _ | e
      · rw [hf] at hm
        exact Option.noConfusion hm
      · rw [hf] at hm
        injection hm with hm
        rw [← hm]
        exact h e (List.mem_of_find?_eq_some hf)
    intro p hp
    obtain ⟨e, he, hpe⟩ := List.mem_map.mp hp
    by_cases hek : e.1 = net
    · rw [← hpe]
      simp only [hek, if_pos]
      exact NQInv_pop nq hnq
    · rw [← hpe]
      simp only [hek, if_neg, if_false]
      exact h e he

/-- `Frontier.pop_batch_for_network` preserves the invariant. -/
theorem FrInv_pop_batch_for_network (net : String) (n : Nat) :
    ∀ (fr : Frontier), FrInv fr →
      FrInv (fr.pop_batch_for_network net n).2 := by
  induction n with
  | zero => exact fun fr h => h
  | succ m ih =>
    intro fr h
    unfold Frontier.pop_batch_for_network
    rcases hp : fr.pop_for_network net with ⟨j, fr2⟩
    have h2 : FrInv fr2 := by
      have := FrInv_pop_for_network fr net h
      rw [hp] at this
      exact this
    rcases j with _ | job
    · exact h2
    · simpa using ih fr2 h2

/-- `popListAux` preserves `NQInv` of every entry. -/
theorem popListAux_inv (l : List (String × NetworkQueue))
    (h : ∀ p ∈ l, NQInv p.2) : ∀ p ∈ (popListAux l).2, NQInv p.2 := by
  induction l with
  | nil => simp [popListAux]
  | cons e t ih =>
    have he : NQInv e.2 := h e (List.mem_cons_self _ _)
    have ht : ∀ p ∈ t, NQInv p.2 := fun p hp => h p (List.mem_cons_of_mem _ hp)
    rcases e with ⟨name, nq⟩
    unfold popListAux
    rcases hq : nq.pop with ⟨j, nq2⟩
    have hnq2 : NQInv nq2 := by
      have := NQInv_pop nq he
      rw [hq] at this
      exact this
    rcases j with _ | job
    · intro p hp
      rcases List.mem_cons.mp hp with rfl | hmem
      · exact hnq2
      · exact ih ht p hmem
    · intro p hp
      rcases List.mem_cons.mp hp with rfl | hmem
      · exact hnq2
      · exact ht p hmem

/-- `Frontier.pop` preserves the invariant. -/
theorem FrInv_pop (fr : Frontier) (h : FrInv fr) : FrInv fr.pop.2 :=
  popListAux_inv fr.networks h

/-- C10 (invariants): each per-network queue holds at most one entry per
normalized URL.  Under the alignment invariant `NQInv` — the priority
queue's key list is duplicate-free and is a permutation of the job
map's key list — the queue length equals the number of stored jobs;
pushing a job whose normalized URL is already queued keeps the queue
length and replaces the stored job and queued priority in place; and
the invariant is preserved by `NetworkQueue::push`/`pop` and by every
frontier operation: `push`, `push_batch`, `push_back`, `add_seeds`,
`pop_for_network`, `pop_batch_for_network` and `pop`. -/
theorem C10_queue_jobs_alignment :
    (∀ nq : NetworkQueue, NQInv nq → nq.queue.length = nq.jobs.length) ∧
    (∀ (nq : NetworkQueue) (k : String) (job : CrawlJob), NQInv nq →
      k ∈ nq.queue.map Prod.fst →
      (nq.push k job).queue.length = nq.queue.length ∧
      mapGet (nq.push k job).jobs k = some job ∧
      mapGet (nq.push k job).queue k = some job.priority) ∧
    (∀ (nq : NetworkQueue) (k : String) (job : CrawlJob),
      NQInv nq → NQInv (nq.push k job)) ∧
    (∀ nq : NetworkQueue, NQInv nq → NQInv (nq.pop).2) ∧
    (∀ fr : Frontier, FrInv fr →
      (∀ job, FrInv (fr.push job).2) ∧
      (∀ jobs, FrInv (fr.push_batch jobs).2) ∧
      (∀ net jobs, FrInv (fr.push_back net jobs)) ∧
      (∀ parse urls net, FrInv (fr.add_seeds parse urls net).2) ∧
      (∀ net, FrInv (fr.pop_for_network net).2) ∧
      (∀ net n, FrInv (fr.pop_batch_for_network net n).2) ∧
      FrInv fr.pop.2) := by
  refine ⟨NQInv_len, fun nq k job h hk => ?_,
    fun nq k job h => NQInv_push nq k job h,
    fun nq h => NQInv_pop nq h,
    fun fr h => ⟨fun job => FrInv_push fr job h,
      fun jobs => FrInv_push_batch fr jobs h,
      fun net jobs => FrInv_push_back fr net jobs h,
      fun parse urls net => FrInv_add_seeds fr parse urls net h,
      fun net => FrInv_pop_for_network fr net h,
      fun net n => FrInv_pop_batch_for_network net n fr h,
      FrInv_pop fr h⟩⟩
  have hq : nq.queue.any (fun e => e.1 = k) = true := (any_keys _ _).mpr hk
  refine ⟨?_, mapGet_mapInsert_self _ _ _, ?_⟩
  · simp [NetworkQueue.push, pqPush, hq]
  · rw [show (nq.push k job).queue = mapInsert nq.queue k job.priority
      from rfl]
    exact mapGet_mapInsert_self _ _ _

/-- Witness for `C10_queue_jobs_alignment`: the invariant holds of the
one-job frontier from the dedup scenario, its queue and job counts
agree, and it is preserved across a further push and a pop. -/
theorem C10_queue_jobs_alignment_witness :
    FrInv (Frontier.new.push jobXaFrag).2 ∧
    FrInv ((Frontier.new.push jobXaFrag).2.push jobXp1Retry).2 ∧
    FrInv ((Frontier.new.push jobXaFrag).2.pop_for_network "tor").2 := by
  have h : FrInv (Frontier.new.push jobXaFrag).2 := by decide
  exact ⟨h,
    (C10_queue_jobs_alignment.2.2.2.2 (Frontier.new.push jobXaFrag).2 h).1
      jobXp1Retry,
    (C10_queue_jobs_alignment.2.2.2.2 (Frontier.new.push jobXaFrag).2
      h).2.2.2.2.1 "tor"⟩

/-- Witness for `C8_hyphanet_href_rewrite`: the scenario base
`hyphanet:USK@K/site/5/` and href `/USK@K/site/5/page.html`. -/
theorem C8_hyphanet_href_rewrite_witness :
    (uskUrl.scheme = "hyphanet" ∨ uskUrl.scheme = "freenet") ∧
    strStartsWith "/USK@K/site/5/page.html" "/USK@" = true ∧
    extract_link (fun _ _ => none) uskUrl "" "/USK@K/site/5/page.html" none
      = some { url := "hyphanet:" ++ strDrop "/USK@K/site/5/page.html" 1
               anchor_text := none, is_onion := false, is_i2p := false
               is_zeronet := false, is_hyphanet := true, is_lokinet := false
               is_external := true } :=
  ⟨Or.inl rfl, by decide,
   (C8_hyphanet_href_rewrite.1 (fun _ _ => none) uskUrl ""
     "/USK@K/site/5/page.html" none (Or.inl rfl)).1 (Or.inl (by decide))⟩

end DarkScraper
